import Mathlib

/-!
Verification of the request synthesis and encoding engine of ParamFinder
(`Requester` class): format detection, body encoders (JSON, URL-encoded,
multipart), injection strategies, auxiliary mutators, and the request
dispatcher.  Definitions are shallow embeddings of the TypeScript source;
JavaScript strings are modelled as Lean strings, JavaScript objects used as
header maps are modelled as association lists binding header names to
references into an array store (so that the aliasing behavior of the shallow
header-map copy is captured faithfully).
-/

namespace ParamFinder

/-! ## Character and string helpers (JavaScript primitives) -/

/-- The opening curly brace character. -/
def lbraceChar : Char := Char.ofNat 123

/-- The closing curly brace character. -/
def rbraceChar : Char := Char.ofNat 125

/-- The double-quote character. -/
def quoteChar : Char := Char.ofNat 34

/-- The backslash character. -/
def backslashChar : Char := Char.ofNat 92

/-- ASCII lowercasing of a character, as `String.prototype.toLowerCase`
behaves on ASCII input. -/
def jsToLowerChar (c : Char) : Char :=
  if 65 ≤ c.toNat ∧ c.toNat ≤ 90 then Char.ofNat (c.toNat + 32) else c

/-- ASCII lowercasing of a string (JavaScript `toLowerCase` restricted to the
ASCII range, which covers every content-type constant the engine compares
against). -/
def strToLower (s : String) : String :=
  String.mk (s.toList.map jsToLowerChar)

/-- Does the list start with the given pattern? -/
def startsList : List Char → List Char → Bool
  | _, [] => true
  | [], _ :: _ => false
  | a :: as, b :: bs => a = b && startsList as bs

/-- If `cs` starts with `pat`, return the remainder. -/
def stripPre (pat cs : List Char) : Option (List Char) :=
  match pat, cs with
  | [], rest => some rest
  | _ :: _, [] => none
  | p :: ps, c :: rest => if c = p then stripPre ps rest else none

/-- Substring containment on character lists (JavaScript `String.includes`). -/
def containsList (hay pat : List Char) : Bool :=
  match hay with
  | [] => pat.isEmpty
  | _ :: t => startsList hay pat || containsList t pat

/-- JavaScript `String.prototype.includes`. -/
def strContains (s pat : String) : Bool :=
  containsList s.toList pat.toList

/-- Index of the first occurrence of `pat` in the list, if any
(JavaScript `String.prototype.indexOf`, counting in characters). -/
def idxOfAux (pat : List Char) : List Char → Nat → Option Nat
  | [], i => if pat.isEmpty then some i else none
  | h :: t, i => if startsList (h :: t) pat then some i else idxOfAux pat t (i + 1)

/-- JavaScript `String.prototype.indexOf`, returning `none` for `-1`. -/
def idxOfSub (s pat : String) : Option Nat :=
  idxOfAux pat.toList s.toList 0

/-- JavaScript `String.prototype.slice(0, n)` (prefix of `n` characters). -/
def strTake (s : String) (n : Nat) : String :=
  String.mk (s.toList.take n)

/-- Suffix test on character lists. -/
def listIsSuffixOf (t s : List Char) : Bool :=
  decide (t.length ≤ s.length) && decide (s.drop (s.length - t.length) = t)

/-- JavaScript `String.prototype.endsWith`. -/
def strEndsWith (s t : String) : Bool :=
  listIsSuffixOf t.toList s.toList

/-- JavaScript `String.prototype.startsWith`. -/
def strStartsWith (s t : String) : Bool :=
  startsList s.toList t.toList

/-- Whitespace characters removed by JavaScript `String.prototype.trim`. -/
def jsWsChar (c : Char) : Bool :=
  c = ' ' || c = '\t' || c = '\n' || c = '\r' ||
  c.toNat = 11 || c.toNat = 12 || c.toNat = 160 || c.toNat = 65279 ||
  c.toNat = 8232 || c.toNat = 8233

/-- JavaScript `String.prototype.trim`. -/
def jsTrim (s : String) : String :=
  String.mk (((s.toList.dropWhile jsWsChar).reverse.dropWhile jsWsChar).reverse)

/-- Length of a string counted in UTF-16 code units, which is what the
JavaScript `String.prototype.length` property returns. -/
def jsLength (s : String) : Nat :=
  (s.toList.map (fun c => if c.toNat ≥ 65536 then 2 else 1)).sum

/-! ## JSON values

`Json` models the JavaScript values produced by `JSON.parse`: objects are
association lists in insertion order, numbers keep their source lexeme (no
claim performs numeric computation on them). -/

inductive Json where
  | null : Json
  | bool (b : Bool) : Json
  | num (lexeme : String) : Json
  | str (s : String) : Json
  | arr (elems : List Json) : Json
  | obj (members : List (String × Json)) : Json

/-- Lookup of a key in a JSON object member list (JavaScript property read:
first binding wins; member lists built by the parser and by `setKey` have
unique keys). -/
def getKey? : List (String × Json) → String → Option Json
  | [], _ => none
  | (k, v) :: t, q => if k = q then some v else getKey? t q

/-- JavaScript property assignment on an object: an existing key keeps its
position and gets the new value, a new key is appended at the end. -/
def setKey : List (String × Json) → String → Json → List (String × Json)
  | [], k, v => [(k, v)]
  | (k0, v0) :: t, k, v =>
      if k0 = k then (k0, v) :: t else (k0, v0) :: setKey t k v

/-! ## JSON parser (JavaScript `JSON.parse`) -/

/-- JSON whitespace (the four characters allowed between JSON tokens). -/
def jsonWs (c : Char) : Bool :=
  c = ' ' || c = '\t' || c = '\n' || c = '\r'

/-- Skip JSON whitespace. -/
def skipWs (cs : List Char) : List Char :=
  cs.dropWhile jsonWs

/-- Value of a hexadecimal digit. -/
def hexVal (c : Char) : Option Nat :=
  if '0' ≤ c ∧ c ≤ '9' then some (c.toNat - 48)
  else if 'a' ≤ c ∧ c ≤ 'f' then some (c.toNat - 87)
  else if 'A' ≤ c ∧ c ≤ 'F' then some (c.toNat - 55)
  else none

/-- Parse exactly four hexadecimal digits. -/
def parseHex4 : List Char → Option (Nat × List Char)
  | a :: b :: c :: d :: rest =>
      match hexVal a, hexVal b, hexVal c, hexVal d with
      | some x, some y, some z, some w => some (x * 4096 + y * 256 + z * 16 + w, rest)
      | _, _, _, _ => none
  | _ => none

/-- Parse the contents of a JSON string after the opening quote, returning
the decoded characters and the input after the closing quote. -/
def parseStrChars : List Char → Option (List Char × List Char)
  | [] => none
  | c :: rest =>
      if c = quoteChar then some ([], rest)
      else if c = backslashChar then
        match rest with
        | [] => none
        | e :: rest2 =>
            if e = quoteChar then
              (parseStrChars rest2).map (fun p => (quoteChar :: p.1, p.2))
            else if e = backslashChar then
              (parseStrChars rest2).map (fun p => (backslashChar :: p.1, p.2))
            else if e = '/' then
              (parseStrChars rest2).map (fun p => ('/' :: p.1, p.2))
            else if e = 'b' then
              (parseStrChars rest2).map (fun p => (Char.ofNat 8 :: p.1, p.2))
            else if e = 'f' then
              (parseStrChars rest2).map (fun p => (Char.ofNat 12 :: p.1, p.2))
            else if e = 'n' then
              (parseStrChars rest2).map (fun p => ('\n' :: p.1, p.2))
            else if e = 'r' then
              (parseStrChars rest2).map (fun p => ('\r' :: p.1, p.2))
            else if e = 't' then
              (parseStrChars rest2).map (fun p => ('\t' :: p.1, p.2))
            else if e = 'u' then
              match rest2 with
              | a :: b2 :: c2 :: d2 :: rest3 =>
                  match hexVal a, hexVal b2, hexVal c2, hexVal d2 with
                  | some x, some y, some z, some w =>
                      (parseStrChars rest3).map
                        (fun p => (Char.ofNat (x * 4096 + y * 256 + z * 16 + w) :: p.1, p.2))
                  | _, _, _, _ => none
              | _ => none
            else none
      else if c.toNat < 32 then none
      else (parseStrChars rest).map (fun p => (c :: p.1, p.2))

/-- Parse the integer part of a JSON number (after an optional sign):
either a single `0` or a nonzero digit followed by digits. -/
def parseIntPart : List Char → Option (List Char × List Char)
  | [] => none
  | c :: rest =>
      if c = '0' then some ([c], rest)
      else if '1' ≤ c ∧ c ≤ '9' then
        some (c :: rest.takeWhile Char.isDigit, rest.dropWhile Char.isDigit)
      else none

/-- Parse the optional fraction part of a JSON number. -/
def parseFracPart (cs : List Char) : Option (List Char × List Char) :=
  match cs with
  | '.' :: rest =>
      let ds := rest.takeWhile Char.isDigit
      if ds.isEmpty then none else some ('.' :: ds, rest.dropWhile Char.isDigit)
  | _ => some ([], cs)

/-- Parse the optional exponent part of a JSON number. -/
def parseExpPart (cs : List Char) : Option (List Char × List Char) :=
  match cs with
  | e :: rest =>
      if e = 'e' ∨ e = 'E' then
        match rest with
        | s :: rest2 =>
            if s = '+' ∨ s = '-' then
              let ds := rest2.takeWhile Char.isDigit
              if ds.isEmpty then none
              else some (e :: s :: ds, rest2.dropWhile Char.isDigit)
            else
              let ds := rest.takeWhile Char.isDigit
              if ds.isEmpty then none
              else some (e :: ds, rest.dropWhile Char.isDigit)
        | [] => none
      else some ([], cs)
  | [] => some ([], cs)

/-- Parse a JSON number, returning its lexeme. -/
def parseNumberLex (cs : List Char) : Option (String × List Char) :=
  let (sgn, cs1) : List Char × List Char :=
    match cs with
    | '-' :: t => (['-'], t)
    | _ => ([], cs)
  match parseIntPart cs1 with
  | none => none
  | some (ip, cs2) =>
      match parseFracPart cs2 with
      | none => none
      | some (fp, cs3) =>
          match parseExpPart cs3 with
          | none => none
          | some (ep, cs4) => some (String.mk (sgn ++ ip ++ fp ++ ep), cs4)

mutual

/-- Parse a JSON value (fuel-bounded recursive descent following the
`JSON.parse` grammar). -/
def parseVal : Nat → List Char → Option (Json × List Char)
  | 0, _ => none
  | Nat.succ fuel, cs =>
      match skipWs cs with
      | [] => none
      | c :: rest =>
          if c = lbraceChar then
            match skipWs rest with
            | c2 :: rest2 =>
                if c2 = rbraceChar then some (Json.obj [], rest2)
                else parseMembers fuel [] (c2 :: rest2)
            | [] => none
          else if c = '[' then
            match skipWs rest with
            | ']' :: rest2 => some (Json.arr [], rest2)
            | cs2 => parseElems fuel [] cs2
          else if c = quoteChar then
            (parseStrChars rest).map (fun p => (Json.str (String.mk p.1), p.2))
          else if c = 't' then
            (stripPre ['r', 'u', 'e'] rest).map (fun r => (Json.bool true, r))
          else if c = 'f' then
            (stripPre ['a', 'l', 's', 'e'] rest).map (fun r => (Json.bool false, r))
          else if c = 'n' then
            (stripPre ['u', 'l', 'l'] rest).map (fun r => (Json.null, r))
          else if c = '-' ∨ c.isDigit then
            (parseNumberLex (c :: rest)).map (fun p => (Json.num p.1, p.2))
          else none

/-- Parse the members of a JSON object (after the opening brace, at least one
member present).  Duplicate keys overwrite in place, as in JavaScript. -/
def parseMembers : Nat → List (String × Json) → List Char → Option (Json × List Char)
  | 0, _, _ => none
  | Nat.succ fuel, acc, cs =>
      match skipWs cs with
      | c :: rest =>
          if c = quoteChar then
            match parseStrChars rest with
            | some (kcs, r1) =>
                match skipWs r1 with
                | ':' :: r2 =>
                    match parseVal fuel r2 with
                    | some (v, r3) =>
                        let acc2 := setKey acc (String.mk kcs) v
                        match skipWs r3 with
                        | ',' :: r4 => parseMembers fuel acc2 r4
                        | d :: r4 =>
                            if d = rbraceChar then some (Json.obj acc2, r4) else none
                        | [] => none
                    | none => none
                | _ => none
            | none => none
          else none
      | [] => none

/-- Parse the elements of a JSON array (after the opening bracket, at least
one element present). -/
def parseElems : Nat → List Json → List Char → Option (Json × List Char)
  | 0, _, _ => none
  | Nat.succ fuel, acc, cs =>
      match parseVal fuel cs with
      | some (v, r1) =>
          match skipWs r1 with
          | ',' :: r2 => parseElems fuel (acc ++ [v]) r2
          | ']' :: r2 => some (Json.arr (acc ++ [v]), r2)
          | _ => none
      | none => none

end

/-- JavaScript `JSON.parse` as a partial function: `none` models a thrown
`SyntaxError`.  The fuel is generous: every two fuel units consume at least
one input character. -/
def parseJson (s : String) : Option Json :=
  match parseVal (2 * s.toList.length + 4) s.toList with
  | some (v, rest) => if (skipWs rest).isEmpty then some v else none
  | none => none

/-! ## JSON serialization (JavaScript `JSON.stringify`) -/

/-- Two lowercase hexadecimal digits of a byte. -/
def hex2 (n : Nat) : String :=
  let d : Nat → Char := fun k => if k < 10 then Char.ofNat (48 + k) else Char.ofNat (87 + k)
  String.mk [d (n / 16 % 16), d (n % 16)]

/-- Escape one character the way `JSON.stringify` renders string contents. -/
def escJsonChar (c : Char) : String :=
  if c = quoteChar then String.mk [backslashChar, quoteChar]
  else if c = backslashChar then String.mk [backslashChar, backslashChar]
  else if c = '\n' then String.mk [backslashChar, 'n']
  else if c = '\r' then String.mk [backslashChar, 'r']
  else if c = '\t' then String.mk [backslashChar, 't']
  else if c.toNat = 8 then String.mk [backslashChar, 'b']
  else if c.toNat = 12 then String.mk [backslashChar, 'f']
  else if c.toNat < 32 then String.mk [backslashChar, 'u', '0', '0'] ++ hex2 c.toNat
  else String.mk [c]

/-- Quote a string as a JSON string literal. -/
def quoteJson (s : String) : String :=
  String.mk [quoteChar] ++ String.join (s.toList.map escJsonChar) ++ String.mk [quoteChar]

mutual

/-- JavaScript `JSON.stringify` (with no replacer and no spacing). -/
def stringify : Json → String
  | Json.null => "null"
  | Json.bool b => if b then "true" else "false"
  | Json.num lx => lx
  | Json.str s => quoteJson s
  | Json.arr es => "[" ++ stringifyElems es ++ "]"
  | Json.obj ms => String.mk [lbraceChar] ++ stringifyMembers ms ++ String.mk [rbraceChar]

/-- Comma-separated serialization of array elements. -/
def stringifyElems : List Json → String
  | [] => ""
  | [x] => stringify x
  | x :: y :: t => stringify x ++ "," ++ stringifyElems (y :: t)

/-- Comma-separated serialization of object members. -/
def stringifyMembers : List (String × Json) → String
  | [] => ""
  | [(k, v)] => quoteJson k ++ ":" ++ stringify v
  | (k, v) :: m :: t => quoteJson k ++ ":" ++ stringify v ++ "," ++ stringifyMembers (m :: t)

end

/-! ## Body sniffers (`isJSONBody`, `isQueryBody`, `isXMLBody`) -/

/-- Embedding of `isJSONBody`: `JSON.parse(body)` succeeds. -/
def isJSONBody (body : String) : Bool :=
  (parseJson body).isSome

/-- Characters allowed in the key and value pieces of the query-body regex
(the character class excluding the two separators). -/
def notSep (c : Char) : Bool :=
  c ≠ '=' && c ≠ '&'

/-- Length of `dropWhile` never exceeds the input length. -/
theorem length_dropWhile_le (p : Char → Bool) (l : List Char) :
    (l.dropWhile p).length ≤ l.length := by
  induction l with
  | nil => simp [List.dropWhile]
  | cons a t ih =>
    simp only [List.dropWhile]
    split
    · exact Nat.le_succ_of_le ih
    · simp

/-- Matcher for the anchored regex of `isQueryBody`,
`^(?:[^=&]*=[^=&]*&?)*$`: repeatedly consume a key run, an `=`, a value run
and an optional `&`.  Greedy consumption is complete here because key and
value runs cannot contain the separators. -/
def queryBlocks (cs : List Char) : Bool :=
  if cs = [] then true
  else
      match h2 : cs.dropWhile notSep with
      | '=' :: r2 =>
          match h3 : r2.dropWhile notSep with
          | '&' :: r4 => queryBlocks r4
          | [] => true
          | c3 :: r3 => queryBlocks (c3 :: r3)
      | _ => false
termination_by cs.length
decreasing_by
  all_goals
    have hr2 : r2.length + 1 ≤ cs.length := by
      have h4 := length_dropWhile_le notSep cs
      rw [h2] at h4
      simpa using h4
  · have hr4 : r4.length + 1 ≤ r2.length := by
      have h4 := length_dropWhile_le notSep r2
      rw [h3] at h4
      simpa using h4
    omega
  · have hr3 : r3.length + 1 ≤ r2.length := by
      have h4 := length_dropWhile_le notSep r2
      rw [h3] at h4
      simpa using h4
    simp only [List.length_cons]
    omega

/-- Embedding of `isQueryBody`: the body matches
`/^(?:[^=&]*=[^=&]*&?)*$/` (the empty string matches). -/
def isQueryBody (body : String) : Bool :=
  queryBlocks body.toList

/-- Does the trimmed body start with `<` followed by a character that is
neither `?` nor `!` (the regex `/^<[^?!]/`)? -/
def ltThenOk : List Char → Bool
  | '<' :: c :: _ => c ≠ '?' && c ≠ '!'
  | _ => false

/-- Embedding of `isXMLBody`: the trimmed body starts with `<?xml`, or with
`<` followed by a non-`?`/non-`!` character, and contains `>`. -/
def isXMLBody (body : String) : Bool :=
  let t := jsTrim body
  (strStartsWith t "<?xml" || ltThenOk t.toList) && strContains t ">"

/-! ## Body formats and errors -/

/-- The closed enumeration of body formats (`bodyType` values). -/
inductive BodyType where
  | json : BodyType
  | query : BodyType
  | multipart : BodyType
  | xml : BodyType
deriving DecidableEq

/-- The errors thrown by the engine, one constructor per distinct `Error`
message in the source. -/
inductive Err where
  /-- detection: `Unsupported body type detected.` -/
  | unsupportedFormat : Err
  /-- body dispatch default case: `Unsupported body type.` -/
  | unsupportedBodyFormat : Err
  /-- `Failed to handle JSON body: ...` -/
  | bodyEncodingError : Err
  /-- `Missing Content-Type header` -/
  | missingContentType : Err
  /-- `Missing multipart boundary` -/
  | missingBoundary : Err
  /-- `Invalid multipart body: cannot find final boundary` -/
  | malformedMultipartBody : Err
deriving DecidableEq

/-- Embedding of `determineBodyType`.  `st` is the value of `this.bodyType`
on entry; the result is the value stored in `this.bodyType` on normal exit
(the method throws only when no assignment was made, so an `error` result
leaves the instance state unchanged). -/
def determineBodyType (st : Option BodyType) (body : String)
    (contentType : Option String) : Except Err BodyType :=
  let st1 : Option BodyType :=
    match contentType with
    | some ct =>
        if strContains ct "application/json" then some BodyType.json
        else if strContains ct "application/x-www-form-urlencoded" then some BodyType.query
        else if strContains ct "multipart/form-data" then some BodyType.multipart
        else if strContains ct "application/xml" || strContains ct "text/xml" then
          some BodyType.xml
        else st
    | none => st
  match st1 with
  | some bt => Except.ok bt
  | none =>
      if isJSONBody body then Except.ok BodyType.json
      else if isQueryBody body then Except.ok BodyType.query
      else if isXMLBody body then Except.ok BodyType.xml
      else Except.error Err.unsupportedFormat

/-- A fresh run of the Format Detector on a body and the raw declared
content-type, exactly as the body-surface pipeline invokes it: the declared
content-type is lowercased (`?.toLowerCase()`) before
`determineBodyType` is called with an empty cache. -/
def detectFresh (body : String) (rawCT : Option String) : Except Err BodyType :=
  determineBodyType none body (rawCT.map strToLower)

/-- The XML-like shape exactly as the specification words it: the trimmed
body starts with `<?xml`, or with `<` followed by a character that is
neither `?` nor `!`, and it contains `>`. -/
def specXMLShape (body : String) : Bool :=
  let t := jsTrim body
  (strStartsWith t "<?xml" || ltThenOk t.toList) && strContains t ">"

/-- Structural sniffing in the specification's order: strict JSON parse,
then the `(key=value&)*` grammar, then the XML-like shape, else failure. -/
def specSniff (body : String) : Except Err BodyType :=
  if isJSONBody body then Except.ok BodyType.json
  else if isQueryBody body then Except.ok BodyType.query
  else if specXMLShape body then Except.ok BodyType.xml
  else Except.error Err.unsupportedFormat

/-- The Format Detector as the specification describes it: match the
declared content-type (case-insensitively, via lowercasing) against the four
known substrings in order, and fall back to structural sniffing when none
matched or no content-type is declared. -/
def specDetect (body : String) (rawCT : Option String) : Except Err BodyType :=
  match rawCT with
  | some raw =>
      let ct := strToLower raw
      if strContains ct "application/json" then Except.ok BodyType.json
      else if strContains ct "application/x-www-form-urlencoded" then Except.ok BodyType.query
      else if strContains ct "multipart/form-data" then Except.ok BodyType.multipart
      else if strContains ct "application/xml" || strContains ct "text/xml" then
        Except.ok BodyType.xml
      else specSniff body
  | none => specSniff body

/-! ## Requests, headers and the array store

JavaScript header maps are objects mapping a header name to an array of
values.  `sendRequestWithParams` copies the map shallowly
(`\x7b...request.headers\x7d`), so the copy shares the value arrays with the
original.  To capture that aliasing, header maps are association lists
binding names to references into `Store`, the heap of value arrays; every
write in the source replaces a whole binding with a freshly allocated array
(the source never mutates an existing array in place), which the model
renders as appending a new cell to the store. -/

/-- The heap of header value arrays. -/
abbrev Store := List (List String)

/-- A candidate parameter: a name/value pair. -/
structure Parameter where
  name : String
  value : String

/-- The `Request` value: query string, header map (bindings into the store),
raw body, identifier and context tag. -/
structure Request where
  query : String
  headers : List (String × Nat)
  body : String
  id : String
  context : String

/-- The per-instance mutable fields of the `Requester` class. -/
structure RequesterSt where
  bodyType : Option BodyType
  multipartBoundary : Option String

/-- The attack surface configured for the mining session. -/
inductive AttackType where
  | query : AttackType
  | headers : AttackType
  | body : AttackType
deriving DecidableEq

/-- The configuration fields of `paramMiner.config` read by the engine. -/
structure Config where
  attackType : AttackType
  cacheBusterParameter : Bool
  addCacheBusterParameter : Bool
  updateContentLength : Bool
  autopilotEnabled : Bool
  jsonBodyPath : Option String

/-- First binding of a key in a header map (JavaScript property read;
keys are unique in maps built by JavaScript objects). -/
def lookupBind : List (String × Nat) → String → Option Nat
  | [], _ => none
  | (k, r) :: t, q => if k = q then some r else lookupBind t q

/-- JavaScript property assignment on the header map: an existing key keeps
its position, a new key is appended. -/
def bindSet : List (String × Nat) → String → Nat → List (String × Nat)
  | [], k, r => [(k, r)]
  | (k0, r0) :: t, k, r =>
      if k0 = k then (k0, r) :: t else (k0, r0) :: bindSet t k r

/-- JavaScript `delete` of a key from the header map (keys are unique in
maps built by JavaScript objects, so removing every binding of the name is
the same observable operation). -/
def bindDel : List (String × Nat) → String → List (String × Nat)
  | [], _ => []
  | (k0, r0) :: t, k => if k0 = k then bindDel t k else (k0, r0) :: bindDel t k

/-- Assign a freshly allocated value array to a header name:
`headers[k] = vs` allocates the array `vs` and rebinds `k` to it. -/
def hset (store : Store) (h : List (String × Nat)) (k : String) (vs : List String) :
    Store × List (String × Nat) :=
  (store ++ [vs], bindSet h k store.length)

/-- Read a header's value array through the store. -/
def hget (store : Store) (h : List (String × Nat)) (k : String) : Option (List String) :=
  (lookupBind h k).bind (fun r => store[r]?)

/-! ## Percent encoding (JavaScript `encodeURIComponent`) -/

/-- Characters that `encodeURIComponent` leaves unescaped. -/
def uriUnreserved (c : Char) : Bool :=
  (decide ('A' ≤ c) && decide (c ≤ 'Z')) ||
  (decide ('a' ≤ c) && decide (c ≤ 'z')) ||
  (decide ('0' ≤ c) && decide (c ≤ '9')) ||
  c = '-' || c = '_' || c = '.' || c = '!' || c = '~' || c = '*' ||
  c = Char.ofNat 39 || c = '(' || c = ')'

/-- UTF-8 bytes of a character. -/
def utf8BytesOf (c : Char) : List Nat :=
  let n := c.toNat
  if n < 128 then [n]
  else if n < 2048 then [192 + n / 64, 128 + n % 64]
  else if n < 65536 then [224 + n / 4096, 128 + n / 64 % 64, 128 + n % 64]
  else [240 + n / 262144, 128 + n / 4096 % 64, 128 + n / 64 % 64, 128 + n % 64]

/-- Uppercase hexadecimal digit. -/
def hexU (k : Nat) : Char :=
  if k < 10 then Char.ofNat (48 + k) else Char.ofNat (55 + k)

/-- A percent-escaped byte, `%XX`. -/
def pctByte (b : Nat) : String :=
  String.mk ['%', hexU (b / 16 % 16), hexU (b % 16)]

/-- JavaScript `encodeURIComponent`. -/
def encodeURIComponent (s : String) : String :=
  String.join (s.toList.map (fun c =>
    if uriUnreserved c then String.mk [c]
    else String.join ((utf8BytesOf c).map pctByte)))

/-! ## Injection strategies for the query and header surfaces -/

/-- Embedding of `handleQueryParameters`: percent-encode and append the
parameters to the query string. -/
def handleQueryParameters (request : Request) (parameters : List Parameter) : Request :=
  let queryParams := String.intercalate "&"
    (parameters.map (fun p => encodeURIComponent p.name ++ "=" ++ encodeURIComponent p.value))
  { request with
      query := if request.query = "" then queryParams
               else request.query ++ "&" ++ queryParams }

/-- Embedding of `handleCacheBusterParameter`; the two `Date.now()` readings
are passed in as `now1` and `now2`. -/
def handleCacheBusterParameter (request : Request) (now1 now2 : Nat) : Request :=
  let cacheBusterParam := "cb" ++ Nat.repr now1 ++ "=" ++ Nat.repr now2
  { request with
      query := if request.query = "" then cacheBusterParam
               else request.query ++ "&" ++ cacheBusterParam }

/-- Embedding of `handleHeaderParameters`: each parameter overwrites the
header of the same name with a fresh single-element value array. -/
def handleHeaderParameters (store : Store) (request : Request)
    (parameters : List Parameter) : Store × Request :=
  parameters.foldl
    (fun acc p =>
      let s2h2 := hset acc.1 acc.2.headers p.name [p.value]
      (s2h2.1, { acc.2 with headers := s2h2.2 }))
    (store, request)

/-! ## JSON body encoder (`handleJSONBody`) -/

/-- Canonical array index test: JavaScript treats a string property name as
an array index exactly when it is the canonical decimal form of an integer
below `2^32 - 1`. -/
def jsArrayIdx (s : String) : Option Nat :=
  match s.toList with
  | [] => none
  | c :: rest =>
      if c = '0' then (if rest.isEmpty then some 0 else none)
      else if c.isDigit && rest.all Char.isDigit then
        let n := (c :: rest).foldl (fun a d => a * 10 + (d.toNat - 48)) 0
        if n < 4294967295 then some n else none
      else none

/-- Set an array element at an index, extending with holes as JavaScript
does; `JSON.stringify` serializes holes as `null`. -/
def arrSetIdx (es : List Json) (i : Nat) (v : Json) : List Json :=
  if i < es.length then es.set i v
  else es ++ List.replicate (i - es.length) Json.null ++ [v]

/-- JavaScript property assignment on an array value, as observable through
`JSON.stringify`: an index name writes the element, any other name becomes a
non-index property that the serialization ignores. -/
def arrSetProp (es : List Json) (k : String) (v : Json) : List Json :=
  match jsArrayIdx k with
  | some i => arrSetIdx es i v
  | none => es

/-- Strict-mode JavaScript property assignment `bodyObj[p.name] = p.value`
on the parsed root: objects gain or overwrite a key, arrays receive an index
write (other names are ignored by the serialization), and assignment on
`null` or a primitive throws a `TypeError`, which the surrounding
`try`/`catch` rethrows as the JSON body encoding error. -/
def jsSetRoot (j : Json) (p : Parameter) : Except Err Json :=
  match j with
  | Json.obj ms => Except.ok (Json.obj (setKey ms p.name (Json.str p.value)))
  | Json.arr es => Except.ok (Json.arr (arrSetProp es p.name (Json.str p.value)))
  | _ => Except.error Err.bodyEncodingError

/-- Sequential `forEach` assignment of the parameters onto the root value. -/
def rootInject : List Parameter → Json → Except Err Json
  | [], j => Except.ok j
  | p :: t, j =>
      match jsSetRoot j p with
      | Except.ok j2 => rootInject t j2
      | Except.error e => Except.error e

/-- The object literal `parameters.reduce((acc, param) =>
(\x7b...acc, [param.name]: param.value\x7d), \x7b\x7d)`: parameters become
string-valued members, later duplicates overwrite in place. -/
def paramsToInject (parameters : List Parameter) : List (String × Json) :=
  parameters.foldl (fun acc p => setKey acc p.name (Json.str p.value)) []

/-- The guard `target && typeof target === "object"`: `null` is falsy and
primitives are not of type object, so exactly objects and arrays pass. -/
def isObjLike : Json → Bool
  | Json.obj _ => true
  | Json.arr _ => true
  | _ => false

/-- `Object.assign(target, paramsToInject)` as observable through
`JSON.stringify`: members merge into objects, index names write into arrays,
anything else is left unchanged. -/
def assignInto : Json → List (String × Json) → Json
  | Json.obj ms, es => Json.obj (es.foldl (fun m kv => setKey m kv.1 kv.2) ms)
  | Json.arr xs, es => Json.arr (es.foldl (fun a kv => arrSetProp a kv.1 kv.2) xs)
  | t, _ => t

/-- Splitting on the dot separator (the behavior of `String.splitOn "."`,
written as a structural recursion). -/
def splitDotsAux (acc : List Char) : List Char → List String
  | [] => [String.mk acc.reverse]
  | c :: t =>
      if c = '.' then String.mk acc.reverse :: splitDotsAux [] t
      else splitDotsAux (c :: acc) t

/-- Member path of a JSONPath expression.  Modelled behavior of the
`jsonpath-plus` library for the fragment the engine is documented to use:
an anchored expression `$` or `$.k1.k2...` of plain member names (no
brackets, wildcards or recursive descent). -/
def pathSegs (p : String) : List String :=
  match splitDotsAux [] p.toList with
  | q :: rest => if q = "$" then rest else q :: rest
  | [] => []

mutual

/-- Resolve a member path against a JSON value (modelled `JSONPath` query
with `wrap: false`: the single matching value, or nothing). -/
def resolvePath : Json → List String → Option Json
  | j, [] => some j
  | Json.obj ms, k :: ks => resolveMembers ms k ks
  | Json.arr es, k :: ks =>
      match jsArrayIdx k with
      | some i => resolveElems es i ks
      | none => none
  | _, _ :: _ => none

/-- Resolve a key then the remaining path in an object member list. -/
def resolveMembers : List (String × Json) → String → List String → Option Json
  | [], _, _ => none
  | (k0, v0) :: t, k, ks =>
      if k0 = k then resolvePath v0 ks else resolveMembers t k ks

/-- Resolve an index then the remaining path in an array element list. -/
def resolveElems : List Json → Nat → List String → Option Json
  | [], _, _ => none
  | e :: _, 0, ks => resolvePath e ks
  | _ :: t, Nat.succ i, ks => resolveElems t i ks

end

mutual

/-- Apply a function to the value a member path resolves to, in place
(the mutation of the resolved reference, observed on the whole tree). -/
def updateAtPath : Json → List String → (Json → Json) → Json
  | j, [], f => f j
  | Json.obj ms, k :: ks, f => Json.obj (updateMembers ms k ks f)
  | Json.arr es, k :: ks, f =>
      match jsArrayIdx k with
      | some i => Json.arr (updateElems es i ks f)
      | none => Json.arr es
  | j, _ :: _, _ => j

/-- Update the first binding of a key in an object member list. -/
def updateMembers : List (String × Json) → String → List String → (Json → Json) →
    List (String × Json)
  | [], _, _, _ => []
  | (k0, v0) :: t, k, ks, f =>
      if k0 = k then (k0, updateAtPath v0 ks f) :: t
      else (k0, v0) :: updateMembers t k ks f

/-- Update the element at an index in an array element list. -/
def updateElems : List Json → Nat → List String → (Json → Json) → List Json
  | [], _, _, _ => []
  | e :: t, 0, ks, f => updateAtPath e ks f :: t
  | e :: t, Nat.succ i, ks, f => e :: updateElems t i ks f

end

/-- The injection performed by `handleJSONBody` on the parsed body value:
with no configured path (or an empty one, which is falsy), assign each
parameter on the root; with a path, normalize it (auto-prepend the `$.`
root marker), resolve it, and `Object.assign` the parameter object into the
resolved target when it is object-like, silently doing nothing otherwise. -/
def jsonInject (jsonBodyPath : Option String) (parameters : List Parameter)
    (bodyObj : Json) : Except Err Json :=
  match jsonBodyPath with
  | some p0 =>
      if p0 = "" then rootInject parameters bodyObj
      else
        let jsonPath := if strStartsWith p0 "$" then p0 else "$." ++ p0
        let pti := paramsToInject parameters
        let segs := pathSegs jsonPath
        match resolvePath bodyObj segs with
        | some target =>
            if isObjLike target then
              Except.ok (updateAtPath bodyObj segs (fun t => assignInto t pti))
            else Except.ok bodyObj
        | none => Except.ok bodyObj
  | none => rootInject parameters bodyObj

/-- Embedding of `handleJSONBody`.  The original body (empty treated as an
empty object) must parse as JSON, the parameters are injected, the body is
re-serialized and the lowercase `content-type` header is forced to
`application/json`.  An error leaves the store unchanged (the source throws
before any assignment). -/
def handleJSONBody (cfg : Config) (store : Store) (request : Request)
    (parameters : List Parameter) (originalBody : String) : Store × Except Err Request :=
  let parsed := if originalBody = "" then some (Json.obj []) else parseJson originalBody
  match parsed with
  | none => (store, Except.error Err.bodyEncodingError)
  | some bodyObj =>
      match jsonInject cfg.jsonBodyPath parameters bodyObj with
      | Except.error e => (store, Except.error e)
      | Except.ok newObj =>
          let s2h2 := hset store request.headers "content-type" ["application/json"]
          (s2h2.1, Except.ok { request with body := stringify newObj, headers := s2h2.2 })

/-! ## URL-encoded body encoder (`handleQueryBody`) -/

/-- Embedding of `handleQueryBody`: append percent-encoded pairs to the
existing body and force the lowercase `content-type` header to
`application/x-www-form-urlencoded`. -/
def handleQueryBody (store : Store) (request : Request)
    (parameters : List Parameter) (originalBody : String) : Store × Request :=
  let existingParams := if originalBody = "" then "" else originalBody ++ "&"
  let newParams := String.intercalate "&"
    (parameters.map (fun p => encodeURIComponent p.name ++ "=" ++ encodeURIComponent p.value))
  let s2h2 := hset store request.headers "content-type" ["application/x-www-form-urlencoded"]
  (s2h2.1, { request with body := existingParams ++ newParams, headers := s2h2.2 })

/-! ## Multipart body encoder (`handleMultipartBody`) -/

/-- JavaScript regex line terminators, which `.` does not match. -/
def lineTerm (c : Char) : Bool :=
  c = '\n' || c = '\r' || c.toNat = 8232 || c.toNat = 8233

/-- Match of `/boundary=(.+)/` against the content-type: the capture is the
run of non-terminator characters after the first occurrence of `boundary=`
that is followed by at least one such character. -/
def matchBoundaryAux : List Char → Option String
  | [] => none
  | c :: cs =>
      match stripPre ['b', 'o', 'u', 'n', 'd', 'a', 'r', 'y', '='] (c :: cs) with
      | some rest =>
          let cap := rest.takeWhile (fun x => !(lineTerm x))
          if cap.isEmpty then matchBoundaryAux cs else some (String.mk cap)
      | none => matchBoundaryAux cs

/-- The boundary captured from a content-type value, if any. -/
def matchBoundary (ct : String) : Option String :=
  matchBoundaryAux ct.toList

/-- One injected multipart part for a parameter. -/
def multipartPart (boundary : String) (p : Parameter) : String :=
  "--" ++ boundary ++ "\r\nContent-Disposition: form-data; name=\"" ++ p.name ++
    "\"\r\n\r\n" ++ p.value ++ "\r\n"

/-- Embedding of `handleMultipartBody`.  Requires the raw `Content-Type`
header (exact spelling) to be truthy — the source's
`if (!originalContentType)` throws both when the header is absent and when
its first value is the (falsy) empty string — with a `boundary=` directive
and a body containing
the final `--<boundary>--` marker; truncates at the marker, pads the prefix
to end in CRLF, appends one part per parameter and the final marker, writes
the body, re-writes the `Content-Type` header to a fresh singleton array
holding the original value, and returns the boundary that the caller stores
in `this.multipartBoundary`.  An error leaves the store unchanged (the
source throws before any assignment). -/
def handleMultipartBody (store : Store) (request : Request)
    (parameters : List Parameter) (originalBody : String) :
    Store × Except Err (Request × String) :=
  match (hget store request.headers "Content-Type").bind List.head? with
  | none => (store, Except.error Err.missingContentType)
  | some originalContentType =>
      if originalContentType = "" then (store, Except.error Err.missingContentType)
      else
      match matchBoundary originalContentType with
      | none => (store, Except.error Err.missingBoundary)
      | some boundary =>
          let finalBoundary := "--" ++ boundary ++ "--"
          match idxOfSub originalBody finalBoundary with
          | none => (store, Except.error Err.malformedMultipartBody)
          | some finalIndex =>
              let pre := strTake originalBody finalIndex
              let pre2 := if strEndsWith pre "\r\n" then pre else pre ++ "\r\n"
              let withParts :=
                parameters.foldl (fun acc p => acc ++ multipartPart boundary p) pre2
              let newBody := withParts ++ finalBoundary
              let s2h2 := hset store request.headers "Content-Type" [originalContentType]
              (s2h2.1,
               Except.ok ({ request with body := newBody, headers := s2h2.2 }, boundary))

/-! ## Body-surface dispatch (`handleBodyParameters`) -/

/-- The declared content-type as `handleBodyParameters` reads it:
`request.headers["Content-Type"]?.[0]?.toLowerCase()` — the exact-case
`Content-Type` key only, first value, lowercased. -/
def declaredCT (store : Store) (h : List (String × Nat)) : Option String :=
  ((hget store h "Content-Type").bind List.head?).map strToLower

/-- The `switch (this.bodyType)` dispatch to the body encoders, given the
format `bt` the instance uses.  The multipart branch stores the discovered
boundary; the default branch (reached for `xml`) throws the unsupported
body type error. -/
def runBodyEncoder (cfg : Config) (bt : BodyType) (st : RequesterSt) (store : Store)
    (request : Request) (parameters : List Parameter) (originalBody : String) :
    RequesterSt × Store × Except Err Request :=
  match bt with
  | BodyType.json =>
      let r := handleJSONBody cfg store request parameters originalBody
      (st, r.1, r.2)
  | BodyType.query =>
      let r := handleQueryBody store request parameters originalBody
      (st, r.1, Except.ok r.2)
  | BodyType.multipart =>
      match handleMultipartBody store request parameters originalBody with
      | (store2, Except.ok rq) =>
          ({ st with multipartBoundary := some rq.2 }, store2, Except.ok rq.1)
      | (store2, Except.error e) => (st, store2, Except.error e)
  | BodyType.xml => (st, store, Except.error Err.unsupportedBodyFormat)

/-- Embedding of `handleBodyParameters`.  The returned `Bool` records
whether detection ran, i.e. whether the `if (!this.bodyType)` guard was
taken; the returned state is the instance state after the call, on both the
normal and the throwing paths. -/
def handleBodyParameters (cfg : Config) (st : RequesterSt) (store : Store)
    (request : Request) (parameters : List Parameter) :
    RequesterSt × Bool × Store × Except Err Request :=
  let originalBody := request.body
  let contentType := declaredCT store request.headers
  match st.bodyType with
  | some bt =>
      let r := runBodyEncoder cfg bt st store request parameters originalBody
      (r.1, false, r.2.1, r.2.2)
  | none =>
      match determineBodyType none originalBody contentType with
      | Except.error e => (st, true, store, Except.error e)
      | Except.ok bt =>
          let st1 : RequesterSt := { st with bodyType := some bt }
          let r := runBodyEncoder cfg bt st1 store request parameters originalBody
          (r.1, true, r.2.1, r.2.2)

/-! ## Content-length mutator and dispatcher -/

/-- Embedding of `updateContentLength`: `request.body.length` (UTF-16 code
units) is written into a fresh `Content-Length` header, or the header is
deleted when the length is zero. -/
def updateContentLength (store : Store) (request : Request) : Store × Request :=
  let contentLength := jsLength request.body
  if contentLength = 0 then
    (store, { request with headers := bindDel request.headers "Content-Length" })
  else
    let s2h2 := hset store request.headers "Content-Length" [Nat.repr contentLength]
    (s2h2.1, { request with headers := s2h2.2 })

/-- Embedding of `sendRequestWithParams` up to the transport send: clone the
request (fresh identifier, caller context defaulted to `discovery`, shallow
header-map copy), run the strategy selected by the attack type, add the
cache buster for the query/header surfaces when enabled, recompute the
content length when enabled.  The `Bool` in the result records whether the
autopilot decision callback would be invoked after the send, per the
source's `config.autopilotEnabled && context === "discovery"` test on the
caller-supplied `context` argument. -/
def sendRequestWithParams (cfg : Config) (st : RequesterSt) (store : Store)
    (request : Request) (parameters : List Parameter) (context : Option String)
    (newId : String) (now1 now2 : Nat) :
    RequesterSt × Store × Except Err (Request × Bool) :=
  let requestCopy : Request :=
    { request with id := newId, context := context.getD "discovery" }
  let afterStrategy : RequesterSt × Store × Except Err Request :=
    match cfg.attackType with
    | AttackType.query =>
        let r1 := handleQueryParameters requestCopy parameters
        let r2 := if cfg.cacheBusterParameter || cfg.addCacheBusterParameter then
                    handleCacheBusterParameter r1 now1 now2
                  else r1
        (st, store, Except.ok r2)
    | AttackType.headers =>
        let sr := handleHeaderParameters store requestCopy parameters
        let r2 := if cfg.cacheBusterParameter || cfg.addCacheBusterParameter then
                    handleCacheBusterParameter sr.2 now1 now2
                  else sr.2
        (st, sr.1, Except.ok r2)
    | AttackType.body =>
        let r := handleBodyParameters cfg st store requestCopy parameters
        (r.1, r.2.2.1, r.2.2.2)
  match afterStrategy with
  | (st1, store1, Except.error e) => (st1, store1, Except.error e)
  | (st1, store1, Except.ok r2) =>
      let sr3 := if cfg.updateContentLength then updateContentLength store1 r2
                 else (store1, r2)
      let autopilotInvoked := cfg.autopilotEnabled && decide (context = some "discovery")
      (st1, sr3.1, Except.ok (sr3.2, autopilotInvoked))

/-! ## Statement vocabulary -/

/-- Well-formedness of a header map against a store: every binding points
at an allocated cell. -/
def WFheaders (store : Store) (h : List (String × Nat)) : Prop :=
  ∀ kr ∈ h, kr.2 < store.length

/-- The store only grows by allocation: `s2` extends `s`. -/
def StoreExt (s s2 : Store) : Prop :=
  ∃ e, s2 = s ++ e

/-- The value of the last parameter with a given name in a batch, if any. -/
def lastParamVal : List Parameter → String → Option String
  | [], _ => none
  | p :: t, q =>
      match lastParamVal t q with
      | some v => some v
      | none => if p.name = q then some p.value else none

/-- The value of the last binding of a key in a member list, if any. -/
def getKeyLast : List (String × Json) → String → Option Json
  | [], _ => none
  | (k, v) :: t, q =>
      match getKeyLast t q with
      | some w => some w
      | none => if k = q then some v else none

/-! ## Supporting lemmas -/

/-- The two XML-shape definitions coincide. -/
theorem specXMLShape_eq_isXMLBody (body : String) : specXMLShape body = isXMLBody body := rfl

/-- The empty string matches the query-body grammar. -/
theorem isQueryBody_empty : isQueryBody "" = true := by
  simp [isQueryBody, queryBlocks]

/-- A fresh detector run coincides with the specification's priority list. -/
theorem detectFresh_eq_specDetect (body : String) (rawCT : Option String) :
    detectFresh body rawCT = specDetect body rawCT := by
  cases rawCT with
  | none => rfl
  | some raw =>
      show determineBodyType none body (some (strToLower raw)) = _
      simp only [determineBodyType, specDetect, specSniff, specXMLShape_eq_isXMLBody]
      split_ifs <;> rfl

/-! ## Claim theorems -/

/-- C2: For every body string and optional declared content-type, the Format
Detector first matches the declared content-type case-insensitively against
substrings (`application/json` to json, `application/x-www-form-urlencoded`
to url-encoded, `multipart/form-data` to multipart, `application/xml` or
`text/xml` to xml), and only if none matched (including when the
content-type is absent) sniffs the body in the exact order: strict JSON
parse to json, else the `(key=value&)*` grammar (which the empty string
matches) to url-encoded, else the XML-like shape to xml, else failure with
the unsupported-format error. -/
theorem c2_format_detector :
    (∀ body rawCT, detectFresh body rawCT = specDetect body rawCT) ∧
    (∀ body r r2, strToLower r = strToLower r2 →
      detectFresh body (some r) = detectFresh body (some r2)) ∧
    isQueryBody "" = true := by
  refine ⟨detectFresh_eq_specDetect, ?_, isQueryBody_empty⟩
  intro body r r2 h
  show determineBodyType none body (some (strToLower r)) =
    determineBodyType none body (some (strToLower r2))
  rw [h]

/-- C2 witness: the case-insensitivity clause applied at a concrete pair of
content-types that agree after lowercasing. -/
theorem c2_format_detector_witness :
    detectFresh "x" (some "Application/JSON") = detectFresh "x" (some "application/json") :=
  c2_format_detector.2.1 "x" "Application/JSON" "application/json" rfl

/-- The body encoders never change the cached body format. -/
theorem runBodyEncoder_bodyType (cfg : Config) (bt : BodyType) (st : RequesterSt)
    (store : Store) (request : Request) (parameters : List Parameter) (ob : String) :
    (runBodyEncoder cfg bt st store request parameters ob).1.bodyType = st.bodyType := by
  cases bt with
  | json => rfl
  | query => rfl
  | xml => rfl
  | multipart =>
      simp only [runBodyEncoder]
      rcases h : handleMultipartBody store request parameters ob with ⟨store2, r⟩
      cases r <;> simp

/-- C1: For every engine instance, the cached body format is determined at
most once and is immutable thereafter: a body-surface call that finds a
cached format `b` runs no detection and dispatches on `b` whatever the
current body and content-type are, keeping the cache at `b`; a call that
finds no cached format runs detection and, when detection succeeds, stores
its result in the cache. -/
theorem c1_body_format_cache (cfg : Config) (st : RequesterSt) (store : Store)
    (request : Request) (parameters : List Parameter) :
    (∀ b, st.bodyType = some b →
      handleBodyParameters cfg st store request parameters =
        ((runBodyEncoder cfg b st store request parameters request.body).1, false,
         (runBodyEncoder cfg b st store request parameters request.body).2.1,
         (runBodyEncoder cfg b st store request parameters request.body).2.2) ∧
      (handleBodyParameters cfg st store request parameters).1.bodyType = some b) ∧
    (st.bodyType = none →
      (handleBodyParameters cfg st store request parameters).2.1 = true ∧
      ∀ bt, determineBodyType none request.body (declaredCT store request.headers) =
          Except.ok bt →
        (handleBodyParameters cfg st store request parameters).1.bodyType = some bt) := by
  constructor
  · intro b hb
    have hmain : handleBodyParameters cfg st store request parameters =
        ((runBodyEncoder cfg b st store request parameters request.body).1, false,
         (runBodyEncoder cfg b st store request parameters request.body).2.1,
         (runBodyEncoder cfg b st store request parameters request.body).2.2) := by
      simp only [handleBodyParameters, hb]
    refine ⟨hmain, ?_⟩
    rw [hmain]
    simp [runBodyEncoder_bodyType, hb]
  · intro hn
    simp only [handleBodyParameters, hn]
    rcases hd : determineBodyType none request.body (declaredCT store request.headers) with e | bt
    · refine ⟨rfl, ?_⟩
      intro bt hbt
      exact absurd hbt (by simp)
    · refine ⟨rfl, ?_⟩
      intro bt2 hbt
      cases hbt
      simp [runBodyEncoder_bodyType]

/-- C1 witness: a cached `query` format is used without detection even
though the body would sniff as JSON, and a fresh instance runs detection. -/
theorem c1_body_format_cache_witness :
    (handleBodyParameters ⟨AttackType.body, false, false, false, false, none⟩
        ⟨some BodyType.query, none⟩ [] ⟨"", [], "\x7b\"k\":1\x7d", "id1", "c"⟩
        []).1.bodyType = some BodyType.query ∧
    (handleBodyParameters ⟨AttackType.body, false, false, false, false, none⟩
        ⟨none, none⟩ [["application/json"]]
        ⟨"", [("Content-Type", 0)], "\x7b\x7d", "id1", "c"⟩ []).2.1 = true :=
  ⟨((c1_body_format_cache _ _ _ _ _).1 BodyType.query rfl).2,
   ((c1_body_format_cache _ _ _ _ _).2 rfl).1⟩

/-- On an error result, the body encoders leave the multipart boundary
cache unchanged (the boundary is stored only on multipart success). -/
theorem runBodyEncoder_boundary_error (cfg : Config) (bt : BodyType) (st : RequesterSt)
    (store : Store) (request : Request) (parameters : List Parameter) (ob : String)
    (e : Err)
    (he : (runBodyEncoder cfg bt st store request parameters ob).2.2 = Except.error e) :
    (runBodyEncoder cfg bt st store request parameters ob).1.multipartBoundary =
      st.multipartBoundary := by
  cases bt with
  | json => rfl
  | query => rfl
  | xml => rfl
  | multipart =>
      simp only [runBodyEncoder] at he ⊢
      rcases h : handleMultipartBody store request parameters ob with ⟨store2, r⟩
      rw [h] at he
      cases r with
      | ok rq => simp at he
      | error e2 => simp

/-- C9 counterexample: on a fresh instance, a body-surface call against a
`text/xml` content-type fails with the unsupported-body-format error, yet
the cached body format changes from `none` to `some xml` during the failing
call, so the cached state is not the same after the call as before it. -/
theorem c9_counterexample :
    (handleBodyParameters ⟨AttackType.body, false, false, false, false, none⟩
        ⟨none, none⟩ [["text/xml"]] ⟨"", [("Content-Type", 0)], "x", "id1", "c"⟩
        []).2.2.2 = Except.error Err.unsupportedBodyFormat ∧
    (handleBodyParameters ⟨AttackType.body, false, false, false, false, none⟩
        ⟨none, none⟩ [["text/xml"]] ⟨"", [("Content-Type", 0)], "x", "id1", "c"⟩
        []).1.bodyType = some BodyType.xml ∧
    (⟨none, none⟩ : RequesterSt).bodyType ≠ some BodyType.xml :=
  ⟨rfl, rfl, by simp⟩

/-- C9 (amended): a failing body-surface call never clears or overwrites
populated cached state: the multipart boundary is unchanged by any failing
call, a populated body format survives any failing call, and the only cache
change a failing call can make is the first-call store of a freshly
detected body format. -/
theorem c9_error_preserves_cache (cfg : Config) (st : RequesterSt) (store : Store)
    (request : Request) (parameters : List Parameter) (e : Err)
    (he : (handleBodyParameters cfg st store request parameters).2.2.2 =
      Except.error e) :
    (handleBodyParameters cfg st store request parameters).1.multipartBoundary =
      st.multipartBoundary ∧
    (∀ b, st.bodyType = some b →
      (handleBodyParameters cfg st store request parameters).1.bodyType = some b) ∧
    (st.bodyType = none →
      (handleBodyParameters cfg st store request parameters).1.bodyType = none ∨
      ∃ bt, determineBodyType none request.body (declaredCT store request.headers) =
          Except.ok bt ∧
        (handleBodyParameters cfg st store request parameters).1.bodyType = some bt) := by
  rcases hb : st.bodyType with _ | b
  · simp only [handleBodyParameters, hb] at he ⊢
    rcases hd : determineBodyType none request.body (declaredCT store request.headers)
      with e2 | bt
    · exact ⟨rfl, fun b hbb => absurd hbb (by simp), fun _ => Or.inl hb⟩
    · rw [hd] at he
      refine ⟨?_, ?_, ?_⟩
      · exact runBodyEncoder_boundary_error _ _ _ _ _ _ _ _ he
      · intro b hbb
        exact absurd hbb (by simp)
      · intro _
        right
        exact ⟨bt, rfl, by simp [runBodyEncoder_bodyType]⟩
  · simp only [handleBodyParameters, hb] at he ⊢
    refine ⟨?_, ?_, ?_⟩
    · exact runBodyEncoder_boundary_error _ _ _ _ _ _ _ _ he
    · intro b2 hbb
      cases hbb
      simp [runBodyEncoder_bodyType, hb]
    · intro hcontra
      exact absurd hcontra (by simp)

/-- C9 witness: a multipart body without a final boundary marker fails and
leaves the already-populated cache (format `multipart`, boundary `X`)
untouched. -/
theorem c9_error_preserves_cache_witness :
    (handleBodyParameters ⟨AttackType.body, false, false, false, false, none⟩
        ⟨some BodyType.multipart, some "X"⟩ [["multipart/form-data; boundary=X"]]
        ⟨"", [("Content-Type", 0)], "no final marker", "id1", "c"⟩
        []).1.multipartBoundary = some "X" :=
  (c9_error_preserves_cache ⟨AttackType.body, false, false, false, false, none⟩
    ⟨some BodyType.multipart, some "X"⟩ [["multipart/form-data; boundary=X"]]
    ⟨"", [("Content-Type", 0)], "no final marker", "id1", "c"⟩ []
    Err.malformedMultipartBody rfl).1

/-! ## Header-map lemmas -/

/-- Reading the key just assigned yields the new reference. -/
theorem lookupBind_bindSet_self (h : List (String × Nat)) (k : String) (r : Nat) :
    lookupBind (bindSet h k r) k = some r := by
  induction h with
  | nil => simp [bindSet, lookupBind]
  | cons kr t ih =>
      rcases kr with ⟨k0, r0⟩
      by_cases hk : k0 = k <;> simp [bindSet, lookupBind, hk, ih]

/-- Assigning one key does not change the binding of another. -/
theorem lookupBind_bindSet_other (h : List (String × Nat)) (k k2 : String) (r : Nat)
    (hne : k2 ≠ k) : lookupBind (bindSet h k r) k2 = lookupBind h k2 := by
  induction h with
  | nil => simp [bindSet, lookupBind, hne, Ne.symm hne]
  | cons kr t ih =>
      rcases kr with ⟨k0, r0⟩
      by_cases hk : k0 = k
      · subst hk
        simp [bindSet, lookupBind, Ne.symm hne]
      · by_cases hk2 : k0 = k2 <;> simp [bindSet, lookupBind, hk, hk2, hne, ih]

/-- Reading a deleted key yields nothing. -/
theorem lookupBind_bindDel_self (h : List (String × Nat)) (k : String) :
    lookupBind (bindDel h k) k = none := by
  induction h with
  | nil => simp [bindDel, lookupBind]
  | cons kr t ih =>
      rcases kr with ⟨k0, r0⟩
      by_cases hk : k0 = k <;> simp [bindDel, lookupBind, hk, ih]

/-- A successful lookup comes from a binding in the map. -/
theorem lookupBind_mem (h : List (String × Nat)) (k : String) (r : Nat)
    (hl : lookupBind h k = some r) : (k, r) ∈ h := by
  induction h with
  | nil => simp [lookupBind] at hl
  | cons kr t ih =>
      rcases kr with ⟨k0, r0⟩
      by_cases hk : k0 = k
      · subst hk
        simp [lookupBind] at hl
        simp [hl]
      · simp [lookupBind, hk] at hl
        exact List.mem_cons_of_mem _ (ih hl)

/-- Reading the header just written yields the fresh array. -/
theorem hget_hset_self (store : Store) (h : List (String × Nat)) (k : String)
    (vs : List String) :
    hget (hset store h k vs).1 (hset store h k vs).2 k = some vs := by
  simp [hget, hset, lookupBind_bindSet_self]

/-- Writing one header does not change the view of another well-formed
header. -/
theorem hget_hset_other (store : Store) (h : List (String × Nat)) (k k2 : String)
    (vs : List String) (hne : k2 ≠ k) (hwf : WFheaders store h) :
    hget (hset store h k vs).1 (hset store h k vs).2 k2 = hget store h k2 := by
  simp only [hget, hset, lookupBind_bindSet_other h k k2 _ hne]
  cases hl : lookupBind h k2 with
  | none => rfl
  | some r =>
      have hr : r < store.length := hwf _ (lookupBind_mem h k2 r hl)
      simp [List.getElem?_append_left hr]

/-- A store extension does not change the view of a well-formed header
map. -/
theorem hget_storeExt (store store2 : Store) (h : List (String × Nat)) (k : String)
    (hext : StoreExt store store2) (hwf : WFheaders store h) :
    hget store2 h k = hget store h k := by
  rcases hext with ⟨e, rfl⟩
  simp only [hget]
  cases hl : lookupBind h k with
  | none => rfl
  | some r =>
      have hr : r < store.length := hwf _ (lookupBind_mem h k r hl)
      simp [List.getElem?_append_left hr]

/-- The per-character UTF-16 weight is positive, so only the empty string
has length zero. -/
theorem jsLength_eq_zero_iff (s : String) : jsLength s = 0 ↔ s = "" := by
  constructor
  · intro h0
    rcases s with ⟨data⟩
    cases data with
    | nil => rfl
    | cons c t =>
        exfalso
        simp only [jsLength, String.toList, List.map_cons, List.sum_cons] at h0
        split at h0 <;> omega
  · intro h
    subst h
    rfl

/-! ## C6 -/

/-- C6 counterexample: for the one-character body `é` the mutator writes
`1` (the UTF-16 string length), not the UTF-8 byte length `2` the claim
requires. -/
theorem c6_counterexample :
    hget (updateContentLength [] ⟨"", [], "é", "id1", "c"⟩).1
        (updateContentLength [] ⟨"", [], "é", "id1", "c"⟩).2.headers "Content-Length" =
      some ["1"] ∧
    "é".utf8ByteSize = 2 ∧
    some ["1"] ≠ some [Nat.repr ("é".utf8ByteSize)] :=
  ⟨rfl, rfl, by decide⟩

/-- C6 (amended): when content-length recompute runs, the `Content-Length`
header is removed entirely when the body is empty (never set to `0`), and
otherwise set to the body's length in UTF-16 code units (the JavaScript
string length, which equals the byte length for ASCII bodies). -/
theorem c6_content_length (store : Store) (request : Request) :
    hget (updateContentLength store request).1
        (updateContentLength store request).2.headers "Content-Length" =
      (if request.body = "" then none
       else some [Nat.repr (jsLength request.body)]) := by
  by_cases hb : request.body = ""
  · have h0 : jsLength "" = 0 := rfl
    simp [updateContentLength, hb, h0, hget, lookupBind_bindDel_self]
  · have h0 : ¬jsLength request.body = 0 := fun hz =>
      hb ((jsLength_eq_zero_iff request.body).1 hz)
    simp [updateContentLength, h0, hb, hget_hset_self]

/-! ## Context preservation through the pipeline -/

/-- Header injection does not change the context tag. -/
theorem handleHeaderParameters_context (store : Store) (r : Request)
    (ps : List Parameter) : (handleHeaderParameters store r ps).2.context = r.context := by
  induction ps generalizing store r with
  | nil => rfl
  | cons p t ih =>
      simp only [handleHeaderParameters, List.foldl_cons] at ih ⊢
      exact ih _ _

/-- The JSON encoder does not change the context tag. -/
theorem handleJSONBody_context (cfg : Config) (store : Store) (r : Request)
    (ps : List Parameter) (ob : String) (store2 : Store) (out : Request)
    (h : handleJSONBody cfg store r ps ob = (store2, Except.ok out)) :
    out.context = r.context := by
  rcases hp : (if ob = "" then some (Json.obj []) else parseJson ob) with _ | bodyObj <;>
    simp only [handleJSONBody, hp] at h
  · simp at h
  · rcases hi : jsonInject cfg.jsonBodyPath ps bodyObj with e | newObj <;>
      simp only [hi] at h
    · simp at h
    · simp only [Prod.mk.injEq, Except.ok.injEq] at h
      rw [← h.2]

/-- The multipart encoder does not change the context tag. -/
theorem handleMultipartBody_context (store : Store) (r : Request)
    (ps : List Parameter) (ob : String) (store2 : Store) (out : Request) (b : String)
    (h : handleMultipartBody store r ps ob = (store2, Except.ok (out, b))) :
    out.context = r.context := by
  rcases hct : (hget store r.headers "Content-Type").bind List.head? with _ | ct <;>
    simp only [handleMultipartBody, hct] at h
  · simp at h
  · by_cases hce : ct = ""
    · simp [hce] at h
    · simp only [if_neg hce] at h
      rcases hbm : matchBoundary ct with _ | boundary <;> simp only [hbm] at h
      · simp at h
      · rcases hidx : idxOfSub ob ("--" ++ boundary ++ "--") with _ | i <;>
          simp only [hidx] at h
        · simp at h
        · simp only [Prod.mk.injEq, Except.ok.injEq] at h
          rw [← h.2.1]

/-- The body-encoder dispatch does not change the context tag. -/
theorem runBodyEncoder_context (cfg : Config) (bt : BodyType) (st : RequesterSt)
    (store : Store) (r : Request) (ps : List Parameter) (ob : String) (out : Request)
    (h : (runBodyEncoder cfg bt st store r ps ob).2.2 = Except.ok out) :
    out.context = r.context := by
  cases bt with
  | json =>
      simp only [runBodyEncoder] at h
      rcases hj : handleJSONBody cfg store r ps ob with ⟨s2, rr⟩
      rw [hj] at h
      dsimp only at h
      subst h
      exact handleJSONBody_context cfg store r ps ob s2 out hj
  | query =>
      simp only [runBodyEncoder, Except.ok.injEq] at h
      rw [← h]
      rfl
  | xml => simp [runBodyEncoder] at h
  | multipart =>
      simp only [runBodyEncoder] at h
      rcases hm : handleMultipartBody store r ps ob with ⟨s2, rr⟩
      rw [hm] at h
      cases rr with
      | error e => simp at h
      | ok rq =>
          dsimp only at h
          rw [Except.ok.injEq] at h
          exact h ▸ handleMultipartBody_context store r ps ob s2 rq.1 rq.2 (by rw [hm])

/-- The body-surface dispatch does not change the context tag. -/
theorem handleBodyParameters_context (cfg : Config) (st : RequesterSt) (store : Store)
    (r : Request) (ps : List Parameter) (out : Request)
    (h : (handleBodyParameters cfg st store r ps).2.2.2 = Except.ok out) :
    out.context = r.context := by
  simp only [handleBodyParameters] at h
  rcases hb : st.bodyType with _ | b
  · rw [hb] at h
    rcases hd : determineBodyType none r.body (declaredCT store r.headers) with e | bt
    · rw [hd] at h
      simp at h
    · rw [hd] at h
      exact runBodyEncoder_context cfg bt _ store r ps r.body out h
  · rw [hb] at h
    exact runBodyEncoder_context cfg b st store r ps r.body out h

/-- The content-length mutator does not change the context tag. -/
theorem updateContentLength_context (store : Store) (r : Request) :
    (updateContentLength store r).2.context = r.context := by
  by_cases h0 : jsLength r.body = 0 <;> simp [updateContentLength, h0]

/-! ## C8 -/

/-- C8 counterexample: with the autopilot toggle enabled and the caller
supplying no context, the dispatched clone is tagged with the discovery
context, yet the decision callback is not invoked (the source tests the
caller's `context` argument, which is undefined, not the clone's tag), so
the callback is not invoked if-and-only-if the request's context is the
discovery context. -/
theorem c8_counterexample :
    (sendRequestWithParams ⟨AttackType.query, false, false, false, true, none⟩
        ⟨none, none⟩ [] ⟨"", [], "", "id1", "orig"⟩ [] none "id2" 0 0).2.2 =
      Except.ok (⟨"", [], "", "id2", "discovery"⟩, false) ∧
    (⟨AttackType.query, false, false, false, true, none⟩ : Config).autopilotEnabled = true :=
  ⟨rfl, rfl⟩

/-- C8 (amended): on a successful dispatch, the decision callback is
invoked if and only if the autopilot toggle is enabled and the caller
explicitly supplied the discovery context as the `context` argument; the
dispatched clone is tagged with the discovery context whenever the caller
supplies no context label (but that tag is not what the callback condition
tests). -/
theorem c8_autopilot_condition (cfg : Config) (st : RequesterSt) (store : Store)
    (request : Request) (parameters : List Parameter) (context : Option String)
    (newId : String) (now1 now2 : Nat) (out : Request) (invoked : Bool)
    (h : (sendRequestWithParams cfg st store request parameters context
        newId now1 now2).2.2 = Except.ok (out, invoked)) :
    invoked = (cfg.autopilotEnabled && decide (context = some "discovery")) ∧
    out.context = context.getD "discovery" := by
  rcases hat : cfg.attackType with _ | _ | _ <;>
    simp only [sendRequestWithParams, hat] at h
  · rw [Except.ok.injEq, Prod.mk.injEq] at h
    refine ⟨h.2.symm, ?_⟩
    rw [← h.1]
    by_cases hu : cfg.updateContentLength = true <;>
      by_cases hcb : (cfg.cacheBusterParameter || cfg.addCacheBusterParameter) = true <;>
        simp [hu, hcb, updateContentLength_context, handleCacheBusterParameter,
          handleQueryParameters]
  · rw [Except.ok.injEq, Prod.mk.injEq] at h
    refine ⟨h.2.symm, ?_⟩
    rw [← h.1]
    by_cases hu : cfg.updateContentLength = true <;>
      by_cases hcb : (cfg.cacheBusterParameter || cfg.addCacheBusterParameter) = true <;>
        simp [hu, hcb, updateContentLength_context, handleCacheBusterParameter,
          handleHeaderParameters_context]
  · rcases hres : (handleBodyParameters cfg st store
        { request with id := newId, context := context.getD "discovery" } parameters).2.2.2
      with e | r2 <;> rw [hres] at h
    · simp at h
    · dsimp only at h
      rw [Except.ok.injEq, Prod.mk.injEq] at h
      refine ⟨h.2.symm, ?_⟩
      rw [← h.1]
      have h2 := handleBodyParameters_context cfg st store
        { request with id := newId, context := context.getD "discovery" } parameters r2 hres
      by_cases hu : cfg.updateContentLength = true <;>
        simp [hu, updateContentLength_context, h2]

/-- C8 witness: with autopilot enabled and the discovery context passed
explicitly, the callback condition evaluates to true and the clone carries
the discovery tag. -/
theorem c8_autopilot_condition_witness :
    (true : Bool) = ((⟨AttackType.query, false, false, false, true, none⟩ : Config).autopilotEnabled
        && decide ((some "discovery" : Option String) = some "discovery")) ∧
    (⟨"", [], "", "id2", "discovery"⟩ : Request).context =
      (some "discovery" : Option String).getD "discovery" :=
  c8_autopilot_condition ⟨AttackType.query, false, false, false, true, none⟩ ⟨none, none⟩
    [] ⟨"", [], "", "id1", "orig"⟩ [] (some "discovery") "id2" 0 0
    ⟨"", [], "", "id2", "discovery"⟩ true rfl

/-! ## String suffix and join lemmas -/

/-- Strings are determined by their character data. -/
theorem strExt (a b : String) (h : a.data = b.data) : a = b := by
  cases a
  cases b
  simp_all

/-- Folding append from `a` prepends `a` to the fold from the empty
string. -/
theorem strFoldl_append (a : String) (l : List String) :
    l.foldl (· ++ ·) a = a ++ l.foldl (· ++ ·) "" := by
  induction l generalizing a with
  | nil => simp [String.append_empty]
  | cons x xs ih =>
      simp only [List.foldl_cons]
      rw [ih (a ++ x), ih ("" ++ x), String.empty_append, String.append_assoc]

/-- Unfolding of `String.join` on a cons. -/
theorem strJoin_cons (x : String) (xs : List String) :
    String.join (x :: xs) = x ++ String.join xs := by
  simp only [String.join, List.foldl_cons, String.empty_append]
  exact strFoldl_append x xs

/-- Appending pieces one by one equals appending their join. -/
theorem foldl_append_join (f : Parameter → String) (a : String) (ps : List Parameter) :
    ps.foldl (fun acc p => acc ++ f p) a = a ++ String.join (ps.map f) := by
  induction ps generalizing a with
  | nil => simp [String.join, String.append_empty]
  | cons p t ih =>
      simp only [List.foldl_cons, List.map_cons, strJoin_cons]
      rw [ih (a ++ f p), String.append_assoc]

/-- The suffix test characterizes suffixes. -/
theorem strEndsWith_iff (s t : String) : strEndsWith s t = true ↔ ∃ q, s = q ++ t := by
  constructor
  · intro h
    simp only [strEndsWith, listIsSuffixOf, Bool.and_eq_true, decide_eq_true_eq] at h
    obtain ⟨hlen, hdrop⟩ := h
    replace hdrop : s.data.drop (s.data.length - t.data.length) = t.data := hdrop
    refine ⟨String.mk (s.data.take (s.data.length - t.data.length)), ?_⟩
    apply strExt
    show s.data = s.data.take (s.data.length - t.data.length) ++ t.data
    set n := s.data.length - t.data.length with hn
    rw [← hdrop, List.take_append_drop]
  · rintro ⟨q, rfl⟩
    simp only [strEndsWith, listIsSuffixOf, Bool.and_eq_true, decide_eq_true_eq]
    constructor
    · show t.data.length ≤ (q ++ t).data.length
      rw [String.data_append, List.length_append]
      omega
    · show (q ++ t).data.drop ((q ++ t).data.length - t.data.length) = t.data
      rw [String.data_append, List.length_append]
      have : q.data.length + t.data.length - t.data.length = q.data.length := by omega
      rw [this, List.drop_left]

/-- A string extended by a suffix ends with that suffix. -/
theorem strEndsWith_append (x t : String) : strEndsWith (x ++ t) t = true :=
  (strEndsWith_iff (x ++ t) t).2 ⟨x, rfl⟩

/-! ## C4 -/

/-- C4: the multipart encoder fails with the missing-content-type error
when the request declares no content-type (the `Content-Type` header absent
or its value the falsy empty string), with the missing-boundary error
when a non-empty declared content-type carries no usable `boundary=`
directive, and
with the malformed-body error when the body lacks the final
`--boundary--` marker; otherwise it truncates the body at the marker, pads
the truncated prefix to end in CRLF, appends one part per parameter in
batch order followed by the final marker again (so the result still ends
with the marker), and re-writes the content-type header with the original
value. -/
theorem c4_multipart_contract (store : Store) (request : Request)
    (ps : List Parameter) :
    ((hget store request.headers "Content-Type").bind List.head? = none ∨
      (hget store request.headers "Content-Type").bind List.head? = some "" →
      handleMultipartBody store request ps request.body =
        (store, Except.error Err.missingContentType)) ∧
    (∀ ct, (hget store request.headers "Content-Type").bind List.head? = some ct →
      ct ≠ "" →
      matchBoundary ct = none →
      handleMultipartBody store request ps request.body =
        (store, Except.error Err.missingBoundary)) ∧
    (∀ ct b, (hget store request.headers "Content-Type").bind List.head? = some ct →
      matchBoundary ct = some b →
      idxOfSub request.body ("--" ++ b ++ "--") = none →
      handleMultipartBody store request ps request.body =
        (store, Except.error Err.malformedMultipartBody)) ∧
    (∀ ct b i, (hget store request.headers "Content-Type").bind List.head? = some ct →
      matchBoundary ct = some b →
      idxOfSub request.body ("--" ++ b ++ "--") = some i →
      ∃ store2 out,
        handleMultipartBody store request ps request.body =
          (store2, Except.ok (out, b)) ∧
        out.body =
          (if strEndsWith (strTake request.body i) "\r\n" then strTake request.body i
           else strTake request.body i ++ "\r\n") ++
            String.join (ps.map (multipartPart b)) ++ ("--" ++ b ++ "--") ∧
        strEndsWith
          (if strEndsWith (strTake request.body i) "\r\n" then strTake request.body i
           else strTake request.body i ++ "\r\n") "\r\n" = true ∧
        strEndsWith out.body ("--" ++ b ++ "--") = true ∧
        hget store2 out.headers "Content-Type" = some [ct]) := by
  refine ⟨?_, ?_, ?_, ?_⟩
  · intro hct
    rcases hct with hct | hct
    · simp [handleMultipartBody, hct]
    · simp [handleMultipartBody, hct]
  · intro ct hct hce hbm
    simp [handleMultipartBody, hct, hce, hbm]
  · intro ct b hct hbm hidx
    have hce : ¬ct = "" := by
      intro h
      rw [h] at hbm
      exact Option.noConfusion hbm
    simp [handleMultipartBody, hct, hce, hbm, hidx]
  · intro ct b i hct hbm hidx
    have hce : ¬ct = "" := by
      intro h
      rw [h] at hbm
      exact Option.noConfusion hbm
    have heq : handleMultipartBody store request ps request.body =
        ((hset store request.headers "Content-Type" [ct]).1,
         Except.ok
           ({ request with
              body := (ps.foldl (fun acc p => acc ++ multipartPart b p)
                (if strEndsWith (strTake request.body i) "\r\n" then strTake request.body i
                 else strTake request.body i ++ "\r\n")) ++ ("--" ++ b ++ "--"),
              headers := (hset store request.headers "Content-Type" [ct]).2 }, b)) := by
      simp [handleMultipartBody, hct, hce, hbm, hidx]
    refine ⟨_, _, heq, ?_, ?_, ?_, ?_⟩
    · show (ps.foldl (fun acc p => acc ++ multipartPart b p)
        (if strEndsWith (strTake request.body i) "\r\n" then strTake request.body i
         else strTake request.body i ++ "\r\n")) ++ ("--" ++ b ++ "--") = _
      rw [foldl_append_join]
    · by_cases hcr : strEndsWith (strTake request.body i) "\r\n" = true
      · simp [hcr]
      · simp only [hcr, Bool.not_eq_true, if_false]
        exact strEndsWith_append _ _
    · exact strEndsWith_append _ _
    · exact hget_hset_self store request.headers "Content-Type" [ct]

/-- C4 witness: a concrete multipart request exercising the success clause
and, on variants, the missing-content-type clause (header absent and header
present with the falsy empty-string value) and the missing-boundary
clause. -/
theorem c4_multipart_contract_witness :
    (∃ store2 out,
      handleMultipartBody [["multipart/form-data; boundary=X"]]
          ⟨"", [("Content-Type", 0)], "--X\r\nA\r\n--X--", "id1", "c"⟩
          [⟨"p", "v"⟩] "--X\r\nA\r\n--X--" =
        (store2, Except.ok (out, "X")) ∧
      out.body =
        (if strEndsWith (strTake "--X\r\nA\r\n--X--" 8) "\r\n"
         then strTake "--X\r\nA\r\n--X--" 8
         else strTake "--X\r\nA\r\n--X--" 8 ++ "\r\n") ++
          String.join ([(⟨"p", "v"⟩ : Parameter)].map (multipartPart "X")) ++
          ("--" ++ "X" ++ "--") ∧
      strEndsWith
        (if strEndsWith (strTake "--X\r\nA\r\n--X--" 8) "\r\n"
         then strTake "--X\r\nA\r\n--X--" 8
         else strTake "--X\r\nA\r\n--X--" 8 ++ "\r\n") "\r\n" = true ∧
      strEndsWith out.body ("--" ++ "X" ++ "--") = true ∧
      hget store2 out.headers "Content-Type" = some ["multipart/form-data; boundary=X"]) ∧
    handleMultipartBody [] ⟨"", [], "--X--", "id1", "c"⟩ [] "--X--" =
      ([], Except.error Err.missingContentType) ∧
    handleMultipartBody [[""]]
        ⟨"", [("Content-Type", 0)], "--X--", "id1", "c"⟩ [] "--X--" =
      ([[""]], Except.error Err.missingContentType) ∧
    handleMultipartBody [["multipart/form-data"]]
        ⟨"", [("Content-Type", 0)], "--X--", "id1", "c"⟩ [] "--X--" =
      ([["multipart/form-data"]], Except.error Err.missingBoundary) :=
  ⟨(c4_multipart_contract [["multipart/form-data; boundary=X"]]
      ⟨"", [("Content-Type", 0)], "--X\r\nA\r\n--X--", "id1", "c"⟩ [⟨"p", "v"⟩]).2.2.2
      "multipart/form-data; boundary=X" "X" 8 rfl rfl rfl,
   (c4_multipart_contract [] ⟨"", [], "--X--", "id1", "c"⟩ []).1 (Or.inl rfl),
   (c4_multipart_contract [[""]]
      ⟨"", [("Content-Type", 0)], "--X--", "id1", "c"⟩ []).1 (Or.inr rfl),
   (c4_multipart_contract [["multipart/form-data"]]
      ⟨"", [("Content-Type", 0)], "--X--", "id1", "c"⟩ []).2.1
      "multipart/form-data" rfl (by decide) rfl⟩

/-! ## C10 -/

/-- C10: detection and the multipart encoder read the declared content-type
only from the exact key `Content-Type` (any other spelling counts as no
declared content-type), while the JSON and URL-encoded encoders write their
forced content-type under the lowercase key `content-type` and leave any
existing `Content-Type` binding in place, so both entries coexist after
those encoders run. -/
theorem c10_header_key_spelling :
    (∀ (store : Store) (h : List (String × Nat)),
      lookupBind h "Content-Type" = none → declaredCT store h = none) ∧
    (∀ (store : Store) (request : Request) (ps : List Parameter),
      lookupBind request.headers "Content-Type" = none →
      handleMultipartBody store request ps request.body =
        (store, Except.error Err.missingContentType)) ∧
    (∀ (cfg : Config) (store : Store) (request : Request) (ps : List Parameter)
        (ob : String) (store2 : Store) (out : Request),
      WFheaders store request.headers →
      handleJSONBody cfg store request ps ob = (store2, Except.ok out) →
      hget store2 out.headers "content-type" = some ["application/json"] ∧
      hget store2 out.headers "Content-Type" = hget store request.headers "Content-Type") ∧
    (∀ (store : Store) (request : Request) (ps : List Parameter) (ob : String),
      WFheaders store request.headers →
      hget (handleQueryBody store request ps ob).1
          (handleQueryBody store request ps ob).2.headers "content-type" =
        some ["application/x-www-form-urlencoded"] ∧
      hget (handleQueryBody store request ps ob).1
          (handleQueryBody store request ps ob).2.headers "Content-Type" =
        hget store request.headers "Content-Type") := by
  refine ⟨?_, ?_, ?_, ?_⟩
  · intro store h hl
    simp [declaredCT, hget, hl]
  · intro store request ps hl
    simp [handleMultipartBody, hget, hl]
  · intro cfg store request ps ob store2 out hwf heq
    rcases hp : (if ob = "" then some (Json.obj []) else parseJson ob) with _ | bodyObj <;>
      simp only [handleJSONBody, hp] at heq
    · simp at heq
    · rcases hi : jsonInject cfg.jsonBodyPath ps bodyObj with e | newObj <;>
        simp only [hi] at heq
      · simp at heq
      · cases heq
        refine ⟨?_, ?_⟩
        · exact hget_hset_self store request.headers "content-type" ["application/json"]
        · exact hget_hset_other store request.headers "content-type" "Content-Type"
            ["application/json"] (by decide) hwf
  · intro store request ps ob hwf
    constructor
    · exact hget_hset_self store request.headers "content-type"
        ["application/x-www-form-urlencoded"]
    · exact hget_hset_other store request.headers "content-type" "Content-Type"
        ["application/x-www-form-urlencoded"] (by decide) hwf

/-- C10 witness: a request carrying only a lowercase `content-type` header
is treated as declaring none, and after JSON encoding a request that had a
proper `Content-Type` header carries both entries. -/
theorem c10_header_key_spelling_witness :
    declaredCT [["application/json"]] [("content-type", 0)] = none ∧
    handleMultipartBody [["multipart/form-data; boundary=X"]]
        ⟨"", [("content-type", 0)], "--X--", "id1", "c"⟩ [] "--X--" =
      ([["multipart/form-data; boundary=X"]], Except.error Err.missingContentType) ∧
    (hget (handleQueryBody [["text/plain"]]
          ⟨"", [("Content-Type", 0)], "", "id1", "c"⟩ [] "").1
        (handleQueryBody [["text/plain"]]
          ⟨"", [("Content-Type", 0)], "", "id1", "c"⟩ [] "").2.headers "content-type" =
      some ["application/x-www-form-urlencoded"] ∧
     hget (handleQueryBody [["text/plain"]]
          ⟨"", [("Content-Type", 0)], "", "id1", "c"⟩ [] "").1
        (handleQueryBody [["text/plain"]]
          ⟨"", [("Content-Type", 0)], "", "id1", "c"⟩ [] "").2.headers "Content-Type" =
      hget [["text/plain"]] [("Content-Type", 0)] "Content-Type") :=
  ⟨c10_header_key_spelling.1 [["application/json"]] [("content-type", 0)] rfl,
   c10_header_key_spelling.2.1 [["multipart/form-data; boundary=X"]]
     ⟨"", [("content-type", 0)], "--X--", "id1", "c"⟩ [] rfl,
   c10_header_key_spelling.2.2.2 [["text/plain"]]
     ⟨"", [("Content-Type", 0)], "", "id1", "c"⟩ [] ""
     (by intro kr hkr; simp at hkr; simp [hkr])⟩

/-! ## Store extension through the pipeline (no mutation of shared arrays) -/

/-- Store extension is reflexive. -/
theorem storeExt_refl (s : Store) : StoreExt s s :=
  ⟨[], by simp⟩

/-- Store extension is transitive. -/
theorem storeExt_trans (a b c : Store) (h1 : StoreExt a b) (h2 : StoreExt b c) :
    StoreExt a c := by
  rcases h1 with ⟨e1, rfl⟩
  rcases h2 with ⟨e2, rfl⟩
  exact ⟨e1 ++ e2, by simp⟩

/-- A header write only allocates. -/
theorem hset_ext (store : Store) (h : List (String × Nat)) (k : String)
    (vs : List String) : StoreExt store (hset store h k vs).1 :=
  ⟨[vs], rfl⟩

/-- Header injection only allocates. -/
theorem handleHeaderParameters_ext (store : Store) (r : Request) (ps : List Parameter) :
    StoreExt store (handleHeaderParameters store r ps).1 := by
  induction ps generalizing store r with
  | nil => exact storeExt_refl store
  | cons p t ih =>
      simp only [handleHeaderParameters, List.foldl_cons] at ih ⊢
      exact storeExt_trans _ _ _ ⟨[[p.value]], rfl⟩ (ih _ _)

/-- The JSON encoder only allocates. -/
theorem handleJSONBody_ext (cfg : Config) (store : Store) (r : Request)
    (ps : List Parameter) (ob : String) :
    StoreExt store (handleJSONBody cfg store r ps ob).1 := by
  rcases hp : (if ob = "" then some (Json.obj []) else parseJson ob) with _ | bodyObj <;>
    simp only [handleJSONBody, hp]
  · exact storeExt_refl store
  · rcases hi : jsonInject cfg.jsonBodyPath ps bodyObj with e | newObj <;> simp only [hi]
    · exact storeExt_refl store
    · exact ⟨[["application/json"]], rfl⟩

/-- The URL-encoded encoder only allocates. -/
theorem handleQueryBody_ext (store : Store) (r : Request) (ps : List Parameter)
    (ob : String) : StoreExt store (handleQueryBody store r ps ob).1 :=
  ⟨[["application/x-www-form-urlencoded"]], rfl⟩

/-- The multipart encoder only allocates. -/
theorem handleMultipartBody_ext (store : Store) (r : Request) (ps : List Parameter)
    (ob : String) : StoreExt store (handleMultipartBody store r ps ob).1 := by
  rcases hct : (hget store r.headers "Content-Type").bind List.head? with _ | ct <;>
    simp only [handleMultipartBody, hct]
  · exact storeExt_refl store
  · by_cases hce : ct = ""
    · simp only [if_pos hce]
      exact storeExt_refl store
    · simp only [if_neg hce]
      rcases hbm : matchBoundary ct with _ | boundary <;> simp only [hbm]
      · exact storeExt_refl store
      · rcases hidx : idxOfSub ob ("--" ++ boundary ++ "--") with _ | i <;> simp only [hidx]
        · exact storeExt_refl store
        · exact ⟨[[ct]], rfl⟩

/-- The body-encoder dispatch only allocates. -/
theorem runBodyEncoder_ext (cfg : Config) (bt : BodyType) (st : RequesterSt)
    (store : Store) (r : Request) (ps : List Parameter) (ob : String) :
    StoreExt store (runBodyEncoder cfg bt st store r ps ob).2.1 := by
  cases bt with
  | json => exact handleJSONBody_ext cfg store r ps ob
  | query => exact handleQueryBody_ext store r ps ob
  | xml => exact storeExt_refl store
  | multipart =>
      have h := handleMultipartBody_ext store r ps ob
      simp only [runBodyEncoder]
      rcases hm : handleMultipartBody store r ps ob with ⟨s2, rr⟩
      rw [hm] at h
      cases rr <;> simpa using h

/-- The body-surface dispatch only allocates. -/
theorem handleBodyParameters_ext (cfg : Config) (st : RequesterSt) (store : Store)
    (r : Request) (ps : List Parameter) :
    StoreExt store (handleBodyParameters cfg st store r ps).2.2.1 := by
  rcases hb : st.bodyType with _ | b <;> simp only [handleBodyParameters, hb]
  · rcases hd : determineBodyType none r.body (declaredCT store r.headers) with e | bt <;>
      simp only [hd]
    · exact storeExt_refl store
    · exact runBodyEncoder_ext cfg bt _ store r ps r.body
  · exact runBodyEncoder_ext cfg b st store r ps r.body

/-- The content-length mutator only allocates. -/
theorem updateContentLength_ext (store : Store) (r : Request) :
    StoreExt store (updateContentLength store r).1 := by
  by_cases h0 : jsLength r.body = 0 <;> simp only [updateContentLength, h0, if_true, if_false]
  · exact storeExt_refl store
  · exact ⟨[[Nat.repr (jsLength r.body)]], rfl⟩

/-- The dispatcher only allocates. -/
theorem sendRequestWithParams_ext (cfg : Config) (st : RequesterSt) (store : Store)
    (request : Request) (parameters : List Parameter) (context : Option String)
    (newId : String) (now1 now2 : Nat) :
    StoreExt store (sendRequestWithParams cfg st store request parameters context
      newId now1 now2).2.1 := by
  rcases hat : cfg.attackType with _ | _ | _ <;> simp only [sendRequestWithParams, hat]
  · by_cases hu : cfg.updateContentLength = true <;> simp only [hu, if_true, if_false]
    · exact updateContentLength_ext store _
    · exact storeExt_refl store
  · by_cases hu : cfg.updateContentLength = true <;> simp only [hu, if_true, if_false]
    · exact storeExt_trans _ _ _ (handleHeaderParameters_ext store _ parameters)
        (updateContentLength_ext _ _)
    · exact handleHeaderParameters_ext store _ parameters
  · rcases hres : (handleBodyParameters cfg st store
        { request with id := newId, context := context.getD "discovery" } parameters)
      with ⟨st1, ran, store1, res⟩
    have hext : StoreExt store store1 := by
      have h := handleBodyParameters_ext cfg st store
        { request with id := newId, context := context.getD "discovery" } parameters
      rw [hres] at h
      exact h
    cases res with
    | error e => exact hext
    | ok r2 =>
        by_cases hu : cfg.updateContentLength = true <;> simp only [hu, if_true, if_false]
        · exact storeExt_trans _ _ _ hext (updateContentLength_ext store1 r2)
        · exact hext

/-! ## C7 -/

/-- C7: a dispatch never mutates the caller's request: the store only grows
by fresh allocations, so every header value sequence the caller's request
points at reads the same through the resulting store, and the caller's
request value itself (query, body, identifier, header bindings) is passed
by value and untouched. -/
theorem c7_caller_not_mutated (cfg : Config) (st : RequesterSt) (store : Store)
    (request : Request) (parameters : List Parameter) (context : Option String)
    (newId : String) (now1 now2 : Nat) :
    StoreExt store (sendRequestWithParams cfg st store request parameters context
      newId now1 now2).2.1 ∧
    (WFheaders store request.headers →
      ∀ k, hget (sendRequestWithParams cfg st store request parameters context
          newId now1 now2).2.1 request.headers k = hget store request.headers k) := by
  refine ⟨sendRequestWithParams_ext cfg st store request parameters context newId now1 now2,
    fun hwf k => ?_⟩
  exact hget_storeExt store _ request.headers k
    (sendRequestWithParams_ext cfg st store request parameters context newId now1 now2) hwf

/-- C7 witness: a header-surface injection that overwrites the caller's
only header still leaves the caller's view of that header intact. -/
theorem c7_caller_not_mutated_witness :
    hget (sendRequestWithParams ⟨AttackType.headers, false, false, true, false, none⟩
        ⟨none, none⟩ [["old"]] ⟨"", [("X-Probe", 0)], "b", "id1", "c"⟩
        [⟨"X-Probe", "new"⟩] none "id2" 0 0).2.1
      [("X-Probe", 0)] "X-Probe" = hget [["old"]] [("X-Probe", 0)] "X-Probe" :=
  (c7_caller_not_mutated ⟨AttackType.headers, false, false, true, false, none⟩
      ⟨none, none⟩ [["old"]] ⟨"", [("X-Probe", 0)], "b", "id1", "c"⟩
      [⟨"X-Probe", "new"⟩] none "id2" 0 0).2
    (by intro kr hkr; simp at hkr; simp [hkr]) "X-Probe"

/-! ## Object-merge lemmas -/

/-- Lookup after a property assignment. -/
theorem getKey?_setKey (l : List (String × Json)) (k : String) (v : Json) (q : String) :
    getKey? (setKey l k v) q = if q = k then some v else getKey? l q := by
  induction l with
  | nil =>
      by_cases hq : q = k
      · subst hq
        simp [setKey, getKey?]
      · simp [setKey, getKey?, hq, Ne.symm hq]
  | cons kv t ih =>
      rcases kv with ⟨k0, v0⟩
      by_cases hk : k0 = k
      · subst hk
        by_cases hq : q = k0
        · subst hq
          simp [setKey, getKey?]
        · simp [setKey, getKey?, hq, Ne.symm hq]
      · by_cases hq0 : k0 = q
        · subst hq0
          simp [setKey, getKey?, hk]
        · simp [setKey, getKey?, hk, hq0, ih]

/-- Lookup after folding parameter assignments onto a member list. -/
theorem getKey?_foldParams (ps : List Parameter) (ms : List (String × Json)) (q : String) :
    getKey? (ps.foldl (fun m p => setKey m p.name (Json.str p.value)) ms) q =
      match lastParamVal ps q with
      | some v => some (Json.str v)
      | none => getKey? ms q := by
  induction ps generalizing ms with
  | nil => simp [lastParamVal]
  | cons p t ih =>
      simp only [List.foldl_cons, ih, lastParamVal]
      cases lastParamVal t q with
      | some v => simp
      | none =>
          simp only [getKey?_setKey]
          by_cases hq : q = p.name
          · simp [hq]
          · simp [hq, if_neg (Ne.symm hq)]

/-- Root injection on an object root always succeeds, folding the
assignments. -/
theorem rootInject_obj (ps : List Parameter) (ms : List (String × Json)) :
    rootInject ps (Json.obj ms) =
      Except.ok (Json.obj (ps.foldl (fun m p => setKey m p.name (Json.str p.value)) ms)) := by
  induction ps generalizing ms with
  | nil => rfl
  | cons p t ih => simp [rootInject, jsSetRoot, List.foldl_cons, ih]

/-- Lookup after folding a list of member entries onto a member list. -/
theorem getKey?_foldEntries (es : List (String × Json)) (ms : List (String × Json))
    (q : String) :
    getKey? (es.foldl (fun m kv => setKey m kv.1 kv.2) ms) q =
      match getKeyLast es q with
      | some v => some v
      | none => getKey? ms q := by
  induction es generalizing ms with
  | nil => simp [getKeyLast]
  | cons kv t ih =>
      rcases kv with ⟨k0, v0⟩
      simp only [List.foldl_cons, ih, getKeyLast]
      cases getKeyLast t q with
      | some w => simp
      | none =>
          simp only [getKey?_setKey]
          by_cases hq : q = k0
          · subst hq
            simp
          · simp [hq, if_neg (Ne.symm hq)]

/-- The keys after a property assignment. -/
theorem keys_setKey (l : List (String × Json)) (k : String) (v : Json) :
    (setKey l k v).map Prod.fst =
      if k ∈ l.map Prod.fst then l.map Prod.fst else l.map Prod.fst ++ [k] := by
  induction l with
  | nil => simp [setKey]
  | cons kv t ih =>
      rcases kv with ⟨k0, v0⟩
      by_cases hk : k0 = k
      · subst hk
        simp [setKey]
      · simp only [setKey, hk, if_false, List.map_cons, ih]
        by_cases hmem : k ∈ t.map Prod.fst
        · simp [hmem, Ne.symm hk]
        · simp [hmem, Ne.symm hk]

/-- Property assignment preserves key uniqueness. -/
theorem nodup_setKey (l : List (String × Json)) (k : String) (v : Json)
    (h : (l.map Prod.fst).Nodup) : ((setKey l k v).map Prod.fst).Nodup := by
  rw [keys_setKey]
  by_cases hmem : k ∈ l.map Prod.fst
  · simpa [hmem] using h
  · simp only [hmem, if_false]
    rw [List.nodup_append]
    refine ⟨h, List.nodup_singleton k, ?_⟩
    intro a ha hb
    simp only [List.mem_singleton] at hb
    subst hb
    exact hmem ha

/-- A last-binding hit witnesses key membership. -/
theorem getKeyLast_mem (l : List (String × Json)) (q : String) (w : Json)
    (h : getKeyLast l q = some w) : q ∈ l.map Prod.fst := by
  induction l with
  | nil => simp [getKeyLast] at h
  | cons kv t ih =>
      rcases kv with ⟨k0, v0⟩
      simp only [getKeyLast] at h
      cases hg : getKeyLast t q with
      | some w2 =>
          rw [hg] at h
          injection h with hw
          subst hw
          exact List.mem_cons_of_mem _ (ih hg)
      | none =>
          rw [hg] at h
          by_cases hk : k0 = q
          · simp [hk]
          · simp [hk] at h

/-- An absent key reads as nothing. -/
theorem getKey?_eq_none_of_not_mem (l : List (String × Json)) (q : String)
    (h : q ∉ l.map Prod.fst) : getKey? l q = none := by
  induction l with
  | nil => rfl
  | cons kv t ih =>
      rcases kv with ⟨k0, v0⟩
      simp only [List.map_cons, List.mem_cons] at h
      push_neg at h
      simp only [getKey?, if_neg (Ne.symm h.1)]
      exact ih h.2

/-- On a member list with unique keys, the last and the first binding of a
key coincide. -/
theorem getKeyLast_eq_getKey? (l : List (String × Json)) (q : String)
    (h : (l.map Prod.fst).Nodup) : getKeyLast l q = getKey? l q := by
  induction l with
  | nil => rfl
  | cons kv t ih =>
      rcases kv with ⟨k0, v0⟩
      simp only [List.map_cons, List.nodup_cons] at h
      obtain ⟨hk0, ht⟩ := h
      simp only [getKeyLast, getKey?, ih ht]
      by_cases hk : k0 = q
      · subst hk
        have hnone : getKey? t k0 = none := getKey?_eq_none_of_not_mem t k0 hk0
        simp [hnone]
      · cases hg : getKey? t q <;> simp [hk]

/-- The parameter object has unique keys. -/
theorem nodup_paramsToInject (ps : List Parameter) :
    ((paramsToInject ps).map Prod.fst).Nodup := by
  have hgen : ∀ (ms : List (String × Json)), (ms.map Prod.fst).Nodup →
      ((ps.foldl (fun acc p => setKey acc p.name (Json.str p.value)) ms).map Prod.fst).Nodup := by
    induction ps with
    | nil => intro ms h; simpa using h
    | cons p t ih =>
        intro ms h
        simp only [List.foldl_cons]
        exact ih _ (nodup_setKey ms p.name (Json.str p.value) h)
  exact hgen [] (by simp)

/-- The last binding in the parameter object is the last parameter value. -/
theorem getKeyLast_paramsToInject (ps : List Parameter) (q : String) :
    getKeyLast (paramsToInject ps) q = (lastParamVal ps q).map Json.str := by
  rw [getKeyLast_eq_getKey? _ _ (nodup_paramsToInject ps)]
  show getKey? (ps.foldl (fun acc p => setKey acc p.name (Json.str p.value)) []) q = _
  rw [getKey?_foldParams]
  cases lastParamVal ps q <;> simp [getKey?]

/-- Merging the parameter object into an object member list: each key reads
the last parameter of that name, or its original value. -/
theorem getKey?_assignInto (ps : List Parameter) (ms : List (String × Json)) (q : String) :
    getKey? ((paramsToInject ps).foldl (fun m kv => setKey m kv.1 kv.2) ms) q =
      match lastParamVal ps q with
      | some v => some (Json.str v)
      | none => getKey? ms q := by
  rw [getKey?_foldEntries, getKeyLast_paramsToInject]
  cases lastParamVal ps q <;> simp

/-- Updating at a resolvable path resolves to the updated value. -/
theorem resolve_update (f : Json → Json) :
    ∀ (segs : List String) (j t : Json), resolvePath j segs = some t →
      resolvePath (updateAtPath j segs f) segs = some (f t) := by
  intro segs
  induction segs with
  | nil =>
      intro j t h
      simp only [resolvePath] at h
      cases h
      simp [updateAtPath, resolvePath]
  | cons k ks ih =>
      intro j t h
      cases j with
      | obj ms =>
          simp only [resolvePath, updateAtPath] at h ⊢
          induction ms with
          | nil => simp [resolveMembers] at h
          | cons kv tl ihm =>
              rcases kv with ⟨k0, v0⟩
              by_cases hk : k0 = k
              · subst hk
                simp only [resolveMembers, updateMembers, if_pos rfl] at h ⊢
                exact ih v0 t h
              · simp only [resolveMembers, updateMembers, if_neg hk] at h ⊢
                exact ihm h
      | arr es =>
          cases hji : jsArrayIdx k with
          | none => simp [resolvePath, hji] at h
          | some i =>
              simp only [resolvePath, hji] at h
              simp only [updateAtPath, resolvePath, hji]
              clear hji
              induction es generalizing i with
              | nil => simp [resolveElems] at h
              | cons e tl ihe =>
                  cases i with
                  | zero =>
                      simp only [resolveElems, updateElems] at h ⊢
                      exact ih e t h
                  | succ i2 =>
                      simp only [resolveElems, updateElems] at h ⊢
                      exact ihe i2 h
      | null => simp [resolvePath] at h
      | bool b => simp [resolvePath] at h
      | num lx => simp [resolvePath] at h
      | str s => simp [resolvePath] at h

/-! ## C3 -/

/-- C3 counterexample: the body `null` is non-empty and parses as JSON, yet
injecting a parameter with no target path fails with the body-encoding
error (property assignment on the parsed `null` root throws), so the
encoder does not fail exactly when the body is non-empty and unparseable. -/
theorem c3_counterexample :
    handleJSONBody ⟨AttackType.body, false, false, false, false, none⟩ []
        ⟨"", [], "null", "id1", "c"⟩ [⟨"a", "1"⟩] "null" =
      ([], Except.error Err.bodyEncodingError) ∧
    ("null" : String) ≠ "" ∧
    parseJson "null" = some Json.null :=
  ⟨rfl, by decide, rfl⟩

/-- C3 (amended): the JSON body encoder parses the original body (empty
treated as an empty object) and fails with the body-encoding error when a
non-empty body does not parse as JSON (and also when the parsed root cannot
accept property assignment, e.g. a `null` root with a non-empty batch).
With no target path and an object root, each parameter becomes a top-level
key overwriting same-named keys; with a target path (root marker
auto-prepended) resolving to an object, the parameters merge into that
object as keys, overwriting on conflict; when resolution yields nothing or
a non-container the body is left semantically unchanged; on success the
body content-type is forced to `application/json`. -/
theorem c3_json_encoder (cfg : Config) (store : Store) (request : Request)
    (ps : List Parameter) (ob : String) :
    (ob ≠ "" → parseJson ob = none →
      handleJSONBody cfg store request ps ob =
        (store, Except.error Err.bodyEncodingError)) ∧
    (∀ ms, cfg.jsonBodyPath = none →
      (if ob = "" then some (Json.obj []) else parseJson ob) = some (Json.obj ms) →
      ∃ store2 out,
        handleJSONBody cfg store request ps ob = (store2, Except.ok out) ∧
        out.body = stringify (Json.obj
          (ps.foldl (fun m p => setKey m p.name (Json.str p.value)) ms)) ∧
        (∀ q, getKey? (ps.foldl (fun m p => setKey m p.name (Json.str p.value)) ms) q =
          match lastParamVal ps q with
          | some v => some (Json.str v)
          | none => getKey? ms q) ∧
        hget store2 out.headers "content-type" = some ["application/json"]) ∧
    (∀ p bodyObj ms, cfg.jsonBodyPath = some p → p ≠ "" →
      (if ob = "" then some (Json.obj []) else parseJson ob) = some bodyObj →
      resolvePath bodyObj (pathSegs (if strStartsWith p "$" then p else "$." ++ p)) =
        some (Json.obj ms) →
      ∃ store2 out,
        handleJSONBody cfg store request ps ob = (store2, Except.ok out) ∧
        out.body = stringify (updateAtPath bodyObj
          (pathSegs (if strStartsWith p "$" then p else "$." ++ p))
          (fun t => assignInto t (paramsToInject ps))) ∧
        resolvePath
            (updateAtPath bodyObj
              (pathSegs (if strStartsWith p "$" then p else "$." ++ p))
              (fun t => assignInto t (paramsToInject ps)))
            (pathSegs (if strStartsWith p "$" then p else "$." ++ p)) =
          some (Json.obj ((paramsToInject ps).foldl (fun m kv => setKey m kv.1 kv.2) ms)) ∧
        (∀ q, getKey? ((paramsToInject ps).foldl (fun m kv => setKey m kv.1 kv.2) ms) q =
          match lastParamVal ps q with
          | some v => some (Json.str v)
          | none => getKey? ms q) ∧
        hget store2 out.headers "content-type" = some ["application/json"]) ∧
    (∀ p bodyObj, cfg.jsonBodyPath = some p → p ≠ "" →
      (if ob = "" then some (Json.obj []) else parseJson ob) = some bodyObj →
      (∀ t, resolvePath bodyObj (pathSegs (if strStartsWith p "$" then p else "$." ++ p)) =
        some t → isObjLike t = false) →
      ∃ store2 out,
        handleJSONBody cfg store request ps ob = (store2, Except.ok out) ∧
        out.body = stringify bodyObj ∧
        hget store2 out.headers "content-type" = some ["application/json"]) := by
  refine ⟨?_, ?_, ?_, ?_⟩
  · intro hne hp
    simp [handleJSONBody, hne, hp]
  · intro ms hjp hparse
    have heq : handleJSONBody cfg store request ps ob =
        ((hset store request.headers "content-type" ["application/json"]).1,
         Except.ok { request with
           body := stringify (Json.obj
             (ps.foldl (fun m p => setKey m p.name (Json.str p.value)) ms)),
           headers := (hset store request.headers "content-type" ["application/json"]).2 }) := by
      simp [handleJSONBody, hparse, jsonInject, hjp, rootInject_obj]
    refine ⟨_, _, heq, rfl, fun q => getKey?_foldParams ps ms q, ?_⟩
    exact hget_hset_self store request.headers "content-type" ["application/json"]
  · intro p bodyObj ms hjp hpne hparse hres
    have heq : handleJSONBody cfg store request ps ob =
        ((hset store request.headers "content-type" ["application/json"]).1,
         Except.ok { request with
           body := stringify (updateAtPath bodyObj
             (pathSegs (if strStartsWith p "$" then p else "$." ++ p))
             (fun t => assignInto t (paramsToInject ps))),
           headers := (hset store request.headers "content-type" ["application/json"]).2 }) := by
      simp [handleJSONBody, hparse, jsonInject, hjp, hpne, hres, isObjLike]
    refine ⟨_, _, heq, rfl, ?_, fun q => getKey?_assignInto ps ms q, ?_⟩
    · have h2 := resolve_update (fun t => assignInto t (paramsToInject ps))
        (pathSegs (if strStartsWith p "$" then p else "$." ++ p)) bodyObj (Json.obj ms) hres
      rw [h2]
      simp [assignInto]
    · exact hget_hset_self store request.headers "content-type" ["application/json"]
  · intro p bodyObj hjp hpne hparse hres
    have heq : handleJSONBody cfg store request ps ob =
        ((hset store request.headers "content-type" ["application/json"]).1,
         Except.ok { request with
           body := stringify bodyObj,
           headers := (hset store request.headers "content-type" ["application/json"]).2 }) := by
      rcases ht : resolvePath bodyObj
          (pathSegs (if strStartsWith p "$" then p else "$." ++ p)) with _ | t
      · simp [handleJSONBody, hparse, jsonInject, hjp, hpne, ht]
      · simp [handleJSONBody, hparse, jsonInject, hjp, hpne, ht, hres t ht]
    refine ⟨_, _, heq, rfl, ?_⟩
    exact hget_hset_self store request.headers "content-type" ["application/json"]

/-- C3 witness: concrete runs of the failure clause, the no-path merge into
an empty object, and the path merge into `data`. -/
theorem c3_json_encoder_witness :
    handleJSONBody ⟨AttackType.body, false, false, false, false, none⟩ []
        ⟨"", [], "notjson(", "id1", "c"⟩ [] "notjson(" =
      ([], Except.error Err.bodyEncodingError) ∧
    (∃ store2 out,
      handleJSONBody ⟨AttackType.body, false, false, false, false, none⟩ []
          ⟨"", [], "", "id1", "c"⟩ [⟨"a", "1"⟩, ⟨"b", "2"⟩] "" =
        (store2, Except.ok out) ∧
      out.body = stringify (Json.obj
        ([(⟨"a", "1"⟩ : Parameter), ⟨"b", "2"⟩].foldl
          (fun m p => setKey m p.name (Json.str p.value)) [])) ∧
      (∀ q, getKey? ([(⟨"a", "1"⟩ : Parameter), ⟨"b", "2"⟩].foldl
          (fun m p => setKey m p.name (Json.str p.value)) []) q =
        match lastParamVal [(⟨"a", "1"⟩ : Parameter), ⟨"b", "2"⟩] q with
        | some v => some (Json.str v)
        | none => getKey? [] q) ∧
      hget store2 out.headers "content-type" = some ["application/json"]) ∧
    (∃ store2 out,
      handleJSONBody ⟨AttackType.body, false, false, false, false, some "data"⟩ []
          ⟨"", [], "\x7b\"data\":\x7b\x7d\x7d", "id1", "c"⟩ [⟨"a", "1"⟩]
          "\x7b\"data\":\x7b\x7d\x7d" =
        (store2, Except.ok out) ∧
      out.body = stringify (updateAtPath (Json.obj [("data", Json.obj [])])
        (pathSegs (if strStartsWith "data" "$" then "data" else "$." ++ "data"))
        (fun t => assignInto t (paramsToInject [⟨"a", "1"⟩]))) ∧
      resolvePath
          (updateAtPath (Json.obj [("data", Json.obj [])])
            (pathSegs (if strStartsWith "data" "$" then "data" else "$." ++ "data"))
            (fun t => assignInto t (paramsToInject [⟨"a", "1"⟩])))
          (pathSegs (if strStartsWith "data" "$" then "data" else "$." ++ "data")) =
        some (Json.obj ((paramsToInject [(⟨"a", "1"⟩ : Parameter)]).foldl
          (fun m kv => setKey m kv.1 kv.2) [])) ∧
      (∀ q, getKey? ((paramsToInject [(⟨"a", "1"⟩ : Parameter)]).foldl
          (fun m kv => setKey m kv.1 kv.2) []) q =
        match lastParamVal [(⟨"a", "1"⟩ : Parameter)] q with
        | some v => some (Json.str v)
        | none => getKey? [] q) ∧
      hget store2 out.headers "content-type" = some ["application/json"]) :=
  ⟨(c3_json_encoder ⟨AttackType.body, false, false, false, false, none⟩ []
      ⟨"", [], "notjson(", "id1", "c"⟩ [] "notjson(").1 (by decide) rfl,
   (c3_json_encoder ⟨AttackType.body, false, false, false, false, none⟩ []
      ⟨"", [], "", "id1", "c"⟩ [⟨"a", "1"⟩, ⟨"b", "2"⟩] "").2.1 [] rfl rfl,
   (c3_json_encoder ⟨AttackType.body, false, false, false, false, some "data"⟩ []
      ⟨"", [], "\x7b\"data\":\x7b\x7d\x7d", "id1", "c"⟩ [⟨"a", "1"⟩]
      "\x7b\"data\":\x7b\x7d\x7d").2.2.1 "data" (Json.obj [("data", Json.obj [])]) []
      rfl (by decide) rfl rfl⟩

/-! ## C5 -/

/-- Any body with the `application/json` content-type detects as json. -/
theorem detect_json_ct (b : String) :
    detectFresh b (some "application/json") = Except.ok BodyType.json := by
  show determineBodyType none b (some (strToLower "application/json")) = _
  have h1 : strToLower "application/json" = "application/json" := rfl
  rw [h1]
  have h2 : strContains "application/json" "application/json" = true := by decide
  simp [determineBodyType, h2]

/-- Any body with the `application/x-www-form-urlencoded` content-type
detects as url-encoded. -/
theorem detect_query_ct (b : String) :
    detectFresh b (some "application/x-www-form-urlencoded") =
      Except.ok BodyType.query := by
  show determineBodyType none b
    (some (strToLower "application/x-www-form-urlencoded")) = _
  have h1 : strToLower "application/x-www-form-urlencoded" =
      "application/x-www-form-urlencoded" := rfl
  rw [h1]
  have h2 : strContains "application/x-www-form-urlencoded" "application/json" = false := by
    decide
  have h3 : strContains "application/x-www-form-urlencoded"
      "application/x-www-form-urlencoded" = true := by decide
  simp [determineBodyType, h2, h3]

/-- A multipart classification can only come from the content-type phase,
so it is independent of the body. -/
theorem ct_multipart_detect (lct : String) (b b2 : String)
    (h : determineBodyType none b (some lct) = Except.ok BodyType.multipart) :
    determineBodyType none b2 (some lct) = Except.ok BodyType.multipart := by
  by_cases h1 : strContains lct "application/json" = true
  · simp [determineBodyType, h1] at h
  · by_cases h2 : strContains lct "application/x-www-form-urlencoded" = true
    · simp [determineBodyType, h1, h2] at h
    · by_cases h3 : strContains lct "multipart/form-data" = true
      · simp [determineBodyType, h1, h2, h3]
      · exfalso
        by_cases h4 : (strContains lct "application/xml" || strContains lct "text/xml") = true
        · simp [determineBodyType, h1, h2, h3, h4] at h
        · simp only [determineBodyType, h1, h2, h3, h4, if_false] at h
          split_ifs at h <;> simp_all

/-- C5: for each supported format, the body produced by the encoder for
that format, together with the content-type the encoder set or preserved,
is classified as the same format by a fresh detector: the JSON and
URL-encoded encoders force their content-types, which detect as json and
url-encoded for any body, and the multipart encoder preserves the original
content-type, whose multipart classification is body-independent. -/
theorem c5_encode_then_detect (cfg : Config) (store : Store) (request : Request)
    (ps : List Parameter) (ob : String) :
    (∀ rawCT store2 out,
      detectFresh ob rawCT = Except.ok BodyType.json →
      handleJSONBody cfg store request ps ob = (store2, Except.ok out) →
      detectFresh out.body (some "application/json") = Except.ok BodyType.json) ∧
    (∀ rawCT,
      detectFresh ob rawCT = Except.ok BodyType.query →
      detectFresh (handleQueryBody store request ps ob).2.body
        (some "application/x-www-form-urlencoded") = Except.ok BodyType.query) ∧
    (∀ rawCT store2 out b2,
      detectFresh ob (some rawCT) = Except.ok BodyType.multipart →
      handleMultipartBody store request ps ob = (store2, Except.ok (out, b2)) →
      (hget store request.headers "Content-Type").bind List.head? = some rawCT →
      detectFresh out.body (some rawCT) = Except.ok BodyType.multipart ∧
      hget store2 out.headers "Content-Type" = some [rawCT]) := by
  refine ⟨?_, ?_, ?_⟩
  · intro rawCT store2 out hv henc
    exact detect_json_ct out.body
  · intro rawCT hv
    exact detect_query_ct (handleQueryBody store request ps ob).2.body
  · intro rawCT store2 out b2 hv henc hctraw
    constructor
    · exact ct_multipart_detect (strToLower rawCT) ob out.body hv
    · simp only [handleMultipartBody, hctraw] at henc
      by_cases hce : rawCT = ""
      · simp [hce] at henc
      · simp only [if_neg hce] at henc
        rcases hbm : matchBoundary rawCT with _ | boundary <;> simp only [hbm] at henc
        · simp at henc
        · rcases hidx : idxOfSub ob ("--" ++ boundary ++ "--") with _ | i <;>
            simp only [hidx] at henc
          · simp at henc
          · simp only [Prod.mk.injEq, Except.ok.injEq] at henc
            obtain ⟨hs2, hout, hb2⟩ := henc
            rw [← hs2, ← hout]
            exact hget_hset_self store request.headers "Content-Type" [rawCT]

/-- C5 witness: a JSON-encoded, a URL-encoded, and a multipart-encoded body
each re-detect as their own format under the content-type the encoder set
or preserved. -/
theorem c5_encode_then_detect_witness :
    detectFresh (⟨"", [("content-type", 0)],
        stringify (Json.obj [("a", Json.str "1")]), "id1", "c"⟩ : Request).body
      (some "application/json") = Except.ok BodyType.json ∧
    detectFresh (handleQueryBody [] ⟨"", [], "a=b", "id1", "c"⟩ [⟨"x", "1 2"⟩] "a=b").2.body
      (some "application/x-www-form-urlencoded") = Except.ok BodyType.query ∧
    (detectFresh (⟨"", [("Content-Type", 1)],
          "--X\r\nA\r\n--X\r\nContent-Disposition: form-data; name=\"p\"\r\n\r\nv\r\n--X--",
          "id1", "c"⟩ : Request).body
        (some "multipart/form-data; boundary=X") = Except.ok BodyType.multipart ∧
     hget [["multipart/form-data; boundary=X"], ["multipart/form-data; boundary=X"]]
        (⟨"", [("Content-Type", 1)],
          "--X\r\nA\r\n--X\r\nContent-Disposition: form-data; name=\"p\"\r\n\r\nv\r\n--X--",
          "id1", "c"⟩ : Request).headers "Content-Type" =
       some ["multipart/form-data; boundary=X"]) :=
  ⟨(c5_encode_then_detect ⟨AttackType.body, false, false, false, false, none⟩ []
      ⟨"", [], "", "id1", "c"⟩ [⟨"a", "1"⟩] "").1 (some "application/json")
      [["application/json"]]
      ⟨"", [("content-type", 0)], stringify (Json.obj [("a", Json.str "1")]), "id1", "c"⟩
      rfl rfl,
   (c5_encode_then_detect ⟨AttackType.body, false, false, false, false, none⟩ []
      ⟨"", [], "a=b", "id1", "c"⟩ [⟨"x", "1 2"⟩] "a=b").2.1
      (some "application/x-www-form-urlencoded") rfl,
   (c5_encode_then_detect ⟨AttackType.body, false, false, false, false, none⟩
      [["multipart/form-data; boundary=X"]]
      ⟨"", [("Content-Type", 0)], "--X\r\nA\r\n--X--", "id1", "c"⟩ [⟨"p", "v"⟩]
      "--X\r\nA\r\n--X--").2.2 "multipart/form-data; boundary=X"
      [["multipart/form-data; boundary=X"], ["multipart/form-data; boundary=X"]]
      ⟨"", [("Content-Type", 1)],
        "--X\r\nA\r\n--X\r\nContent-Disposition: form-data; name=\"p\"\r\n\r\nv\r\n--X--",
        "id1", "c"⟩ "X" rfl rfl rfl⟩

end ParamFinder
